import Mathlib

/-!
# Verification of the phyx contact-constraint solver core (src/Solver.cpp)

Shallow embedding of the sequential-impulses solver over exact rationals.
Machine `float` arithmetic is idealised as `ℚ`; every clamp, select and
branch is translated from the source.  The SIMD lane functions
(`SolveJointsImpulsesSoA`, `SolveJointsDisplacementSoA`, ...) perform a
gather / lane-wise compute / scatter cycle; on the grouped region the lanes
touch pairwise-disjoint bodies and in the scalar instantiation (`VN = 1`,
the `joint_packed1` path of `SolveJointsSoA_Scalar`) each block holds a
single joint, so the per-block semantics embedded here is the sequential
one, block after block, which coincides with the source's execution order.
`lastIteration` is stored in the source as a float bit-pattern inside the
4-float `SolveBody` record purely for gather/scatter; the bitcast roundtrip
is the identity, so it is embedded as a plain integer field.
-/

/-- Caller-owned rigid body (the fields `SolvePrepareSoA` / `SolveFinishSoA`
touch: inverse masses, transform, velocities, displacing velocities). -/
structure RigidBody where
  invMass : ℚ
  invInertia : ℚ
  posX : ℚ
  posY : ℚ
  xVectorX : ℚ
  xVectorY : ℚ
  yVectorX : ℚ
  yVectorY : ℚ
  velocityX : ℚ
  velocityY : ℚ
  angularVelocity : ℚ
  displacingVelocityX : ℚ
  displacingVelocityY : ℚ
  displacingAngularVelocity : ℚ
  deriving DecidableEq

/-- Transient per-body solve record (`SolveBody`): velocity plus the
last-productive-iteration counter (stored as a float bit-pattern in the
source, an integer here). -/
structure SolveBody where
  velocityX : ℚ
  velocityY : ℚ
  angularVelocity : ℚ
  lastIteration : ℤ
  deriving DecidableEq

/-- Read-only per-body record (`SolveBodyParams`). -/
structure SolveBodyParams where
  invMass : ℚ
  invInertia : ℚ
  posX : ℚ
  posY : ℚ
  xVectorX : ℚ
  xVectorY : ℚ
  yVectorX : ℚ
  yVectorY : ℚ
  deriving DecidableEq

/-- Contact point fields consumed by the solver (`ContactPoint`). -/
structure ContactPoint where
  delta1X : ℚ
  delta1Y : ℚ
  delta2X : ℚ
  delta2Y : ℚ
  normalX : ℚ
  normalY : ℚ
  deriving DecidableEq

/-- Projector / composite-mass coefficients of one limiter, the thirteen
fields written by `RefreshLimiter`. -/
structure LimiterCoeffs where
  normalProjector1X : ℚ
  normalProjector1Y : ℚ
  normalProjector2X : ℚ
  normalProjector2Y : ℚ
  angularProjector1 : ℚ
  angularProjector2 : ℚ
  compMass1_linearX : ℚ
  compMass1_linearY : ℚ
  compMass2_linearX : ℚ
  compMass2_linearY : ℚ
  compMass1_angular : ℚ
  compMass2_angular : ℚ
  compInvMass : ℚ
  deriving DecidableEq

/-- Normal limiter: coefficients, accumulated impulse, target velocities
and the accumulated displacing impulse. -/
structure NormalLimiter where
  coeffs : LimiterCoeffs
  accumulatedImpulse : ℚ
  dstVelocity : ℚ
  dstDisplacingVelocity : ℚ
  accumulatedDisplacingImpulse : ℚ
  deriving DecidableEq

/-- Friction limiter: coefficients and accumulated impulse. -/
structure FrictionLimiter where
  coeffs : LimiterCoeffs
  accumulatedImpulse : ℚ
  deriving DecidableEq

/-- A contact joint: body pair, contact point index, two limiters. -/
structure ContactJoint where
  body1Index : ℕ
  body2Index : ℕ
  collisionIndex : ℕ
  normalLimiter : NormalLimiter
  frictionLimiter : FrictionLimiter
  deriving DecidableEq

/-- `kProductiveImpulse = 1e-4f` (Solver.cpp line 6). -/
def kProductiveImpulse : ℚ := 1 / 10000

/-- `kFrictionCoefficient = 0.3f` (Solver.cpp line 7). -/
def kFrictionCoefficient : ℚ := 3 / 10

/-- Lane primitive `flipsign(a, b)`: `a` with its sign flipped when `b` is
negative (sign-bit xor on floats). -/
def flipsign (a b : ℚ) : ℚ := if b < 0 then -a else a

/-- The composite mass `compMass = compMass1 + compMass2` computed inside
`RefreshLimiter` for direction `(n1, n2)` and arms `(w1, w2)`. -/
def limiterCompMass (n1X n1Y n2X n2Y w1X w1Y w2X w2Y
    body1_invMass body1_invInertia body2_invMass body2_invInertia : ℚ) : ℚ :=
  let angularProjector1 := n1X * w1Y - n1Y * w1X
  let angularProjector2 := n2X * w2Y - n2Y * w2X
  let compMass1_linearX := n1X * body1_invMass
  let compMass1_linearY := n1Y * body1_invMass
  let compMass1_angular := angularProjector1 * body1_invInertia
  let compMass2_linearX := n2X * body2_invMass
  let compMass2_linearY := n2Y * body2_invMass
  let compMass2_angular := angularProjector2 * body2_invInertia
  let compMass1 := n1X * compMass1_linearX + n1Y * compMass1_linearY +
    angularProjector1 * compMass1_angular
  let compMass2 := n2X * compMass2_linearX + n2Y * compMass2_linearY +
    angularProjector2 * compMass2_angular
  compMass1 + compMass2

/-- `RefreshLimiter` (Solver.cpp lines 533-565): projectors, composite
masses, and `compInvMass = select(0, 1/compMass, |compMass| > 0)`. -/
def refreshLimiter (n1X n1Y n2X n2Y w1X w1Y w2X w2Y
    body1_invMass body1_invInertia body2_invMass body2_invInertia : ℚ) : LimiterCoeffs :=
  let angularProjector1 := n1X * w1Y - n1Y * w1X
  let angularProjector2 := n2X * w2Y - n2Y * w2X
  let compMass1_linearX := n1X * body1_invMass
  let compMass1_linearY := n1Y * body1_invMass
  let compMass1_angular := angularProjector1 * body1_invInertia
  let compMass2_linearX := n2X * body2_invMass
  let compMass2_linearY := n2Y * body2_invMass
  let compMass2_angular := angularProjector2 * body2_invInertia
  let compMass := limiterCompMass n1X n1Y n2X n2Y w1X w1Y w2X w2Y
    body1_invMass body1_invInertia body2_invMass body2_invInertia
  { normalProjector1X := n1X
    normalProjector1Y := n1Y
    normalProjector2X := n2X
    normalProjector2Y := n2Y
    angularProjector1 := angularProjector1
    angularProjector2 := angularProjector2
    compMass1_linearX := compMass1_linearX
    compMass1_linearY := compMass1_linearY
    compMass2_linearX := compMass2_linearX
    compMass2_linearY := compMass2_linearY
    compMass1_angular := compMass1_angular
    compMass2_angular := compMass2_angular
    compInvMass := if 0 < |compMass| then 1 / compMass else 0 }

/-- One joint of `RefreshJointsSoA` (Solver.cpp lines 567-741): recompute
both limiters from the body transforms and the contact point, set the
target velocities, zero the accumulated displacing impulse; the normal and
friction accumulated impulses are not written (warm start). -/
def refreshJoint (solveBodiesParams : ℕ → SolveBodyParams)
    (solveBodiesImpulse : ℕ → SolveBody)
    (contactPoints : ℕ → ContactPoint) (j : ContactJoint) : ContactJoint :=
  let body1 := solveBodiesParams j.body1Index
  let body2 := solveBodiesParams j.body2Index
  let body1v := solveBodiesImpulse j.body1Index
  let body2v := solveBodiesImpulse j.body2Index
  let cp := contactPoints j.collisionIndex
  let point1X := cp.delta1X + body1.posX
  let point1Y := cp.delta1Y + body1.posY
  let point2X := cp.delta2X + body2.posX
  let point2Y := cp.delta2Y + body2.posY
  let w1X := cp.delta1X
  let w1Y := cp.delta1Y
  let w2X := point1X - body2.posX
  let w2Y := point1Y - body2.posY
  let normalCoeffs := refreshLimiter cp.normalX cp.normalY (-cp.normalX) (-cp.normalY)
    w1X w1Y w2X w2Y body1.invMass body1.invInertia body2.invMass body2.invInertia
  let bounce : ℚ := 0
  let deltaVelocity : ℚ := 1
  let maxPenetrationVelocity : ℚ := 1 / 10
  let deltaDepth : ℚ := 1
  let errorReduction : ℚ := 1 / 10
  let pointVelocity_body1X := (body1.posY - point1Y) * body1v.angularVelocity + body1v.velocityX
  let pointVelocity_body1Y := (point1X - body1.posX) * body1v.angularVelocity + body1v.velocityY
  let pointVelocity_body2X := (body2.posY - point2Y) * body2v.angularVelocity + body2v.velocityX
  let pointVelocity_body2Y := (point2X - body2.posX) * body2v.angularVelocity + body2v.velocityY
  let relativeVelocityX := pointVelocity_body1X - pointVelocity_body2X
  let relativeVelocityY := pointVelocity_body1Y - pointVelocity_body2Y
  let dv := -bounce * (relativeVelocityX * cp.normalX + relativeVelocityY * cp.normalY)
  let depth := (point2X - point1X) * cp.normalX + (point2Y - point1Y) * cp.normalY
  let dstVelocity := max (dv - deltaVelocity) 0
  let dstVelocity' := if depth < deltaDepth then dstVelocity - maxPenetrationVelocity else dstVelocity
  let dstDisplacingVelocity := errorReduction * max 0 (depth - 2 * deltaDepth)
  let tangentX := -cp.normalY
  let tangentY := cp.normalX
  let frictionCoeffs := refreshLimiter tangentX tangentY (-tangentX) (-tangentY)
    w1X w1Y w2X w2Y body1.invMass body1.invInertia body2.invMass body2.invInertia
  { j with
    normalLimiter :=
      { coeffs := normalCoeffs
        accumulatedImpulse := j.normalLimiter.accumulatedImpulse
        dstVelocity := dstVelocity'
        dstDisplacingVelocity := dstDisplacingVelocity
        accumulatedDisplacingImpulse := 0 }
    frictionLimiter :=
      { coeffs := frictionCoeffs
        accumulatedImpulse := j.frictionLimiter.accumulatedImpulse } }

/-- The projected relative velocity of one limiter,
`proj1 . v1 + aProj1 . w1 + proj2 . v2 + aProj2 . w2`: the sequence of
`-=` statements in the solve kernels subtracts exactly this sum. -/
def projectedVelocity (c : LimiterCoeffs) (b1 b2 : SolveBody) : ℚ :=
  c.normalProjector1X * b1.velocityX + c.normalProjector1Y * b1.velocityY +
    c.angularProjector1 * b1.angularVelocity +
    c.normalProjector2X * b2.velocityX + c.normalProjector2Y * b2.velocityY +
    c.angularProjector2 * b2.angularVelocity

/-- Apply an impulse of magnitude `d` to body 1 through `compMass1`. -/
def applyImpulse1 (c : LimiterCoeffs) (b : SolveBody) (d : ℚ) : SolveBody :=
  { b with
    velocityX := b.velocityX + c.compMass1_linearX * d
    velocityY := b.velocityY + c.compMass1_linearY * d
    angularVelocity := b.angularVelocity + c.compMass1_angular * d }

/-- Apply an impulse of magnitude `d` to body 2 through `compMass2`. -/
def applyImpulse2 (c : LimiterCoeffs) (b : SolveBody) (d : ℚ) : SolveBody :=
  { b with
    velocityX := b.velocityX + c.compMass2_linearX * d
    velocityY := b.velocityY + c.compMass2_linearY * d
    angularVelocity := b.angularVelocity + c.compMass2_angular * d }

/-- One lane of `SolveJointsImpulsesSoA` (Solver.cpp lines 885-956): normal
correction with the non-tensile clamp `max(Δ, -accumulated)`, friction
correction on the updated velocities with the friction-cone clamp via
`flipsign`, productivity test, `lastIteration` update.  Returns the updated
body records, joint, and the lane's productive flag.  The `AoS` variant
(lines 409-475) computes the same values: its normal clamp
`if Δ + acc < 0 then Δ = -acc` is the same `max`, and its friction clamp
`dir = force > 0 ? 1 : -1` agrees with `flipsign` whenever the clamp branch
is taken (the branch requires `|force| > bound ≥ 0`, so `force ≠ 0`). -/
def solveJointImpulse (body1 body2 : SolveBody) (j : ContactJoint) (iterationIndex : ℤ) :
    SolveBody × SolveBody × ContactJoint × Bool :=
  let normaldV := j.normalLimiter.dstVelocity - projectedVelocity j.normalLimiter.coeffs body1 body2
  let normalDeltaImpulse := max (normaldV * j.normalLimiter.coeffs.compInvMass)
    (-j.normalLimiter.accumulatedImpulse)
  let body1n := applyImpulse1 j.normalLimiter.coeffs body1 normalDeltaImpulse
  let body2n := applyImpulse2 j.normalLimiter.coeffs body2 normalDeltaImpulse
  let normalAccumulated := j.normalLimiter.accumulatedImpulse + normalDeltaImpulse
  let frictiondV := 0 - projectedVelocity j.frictionLimiter.coeffs body1n body2n
  let frictionDeltaImpulse := frictiondV * j.frictionLimiter.coeffs.compInvMass
  let reactionForce := normalAccumulated
  let accumulatedImpulse := j.frictionLimiter.accumulatedImpulse
  let frictionForce := accumulatedImpulse + frictionDeltaImpulse
  let reactionForceScaled := reactionForce * kFrictionCoefficient
  let frictionDeltaImpulse' :=
    if reactionForceScaled < |frictionForce| then
      flipsign reactionForceScaled frictionForce - accumulatedImpulse
    else frictionDeltaImpulse
  let frictionAccumulated := accumulatedImpulse + frictionDeltaImpulse'
  let body1f := applyImpulse1 j.frictionLimiter.coeffs body1n frictionDeltaImpulse'
  let body2f := applyImpulse2 j.frictionLimiter.coeffs body2n frictionDeltaImpulse'
  let productive := kProductiveImpulse < max |normalDeltaImpulse| |frictionDeltaImpulse'|
  ({ body1f with lastIteration := if productive then iterationIndex else body1.lastIteration },
   { body2f with lastIteration := if productive then iterationIndex else body2.lastIteration },
   { j with
     normalLimiter := { j.normalLimiter with accumulatedImpulse := normalAccumulated }
     frictionLimiter := { j.frictionLimiter with accumulatedImpulse := frictionAccumulated } },
   productive)

/-- Scatter the two updated body records of one lane back into the body
table; `storeindexed4` writes body1 first, then body2, so on the degenerate
aliased pair the body2 store wins. -/
def storeBodies (bodies : ℕ → SolveBody) (i1 i2 : ℕ) (b1 b2 : SolveBody) : ℕ → SolveBody :=
  fun k => if k = i2 then b2 else if k = i1 then b1 else bodies k

/-- The lanes of one block of `SolveJointsImpulsesSoA`, after the early-out
check has passed: each lane gathers its bodies, solves, and scatters.  In
the grouped region the lanes touch pairwise-disjoint bodies, and in the
scalar tail a block is a single lane, so the lane-parallel source semantics
equals this sequential fold. -/
def solveLanesImpulses (bodies : ℕ → SolveBody) (lanes : List ContactJoint)
    (iterationIndex : ℤ) : (ℕ → SolveBody) × List ContactJoint × Bool :=
  match lanes with
  | [] => (bodies, [], false)
  | j :: rest =>
    let r := solveJointImpulse (bodies j.body1Index) (bodies j.body2Index) j iterationIndex
    let bodies' := storeBodies bodies j.body1Index j.body2Index r.1 r.2.1
    let rec' := solveLanesImpulses bodies' rest iterationIndex
    (rec'.1, r.2.2.1 :: rec'.2.1, r.2.2.2 || rec'.2.2)

/-- The early-out predicate of `SolveJointsImpulsesSoA` (lines 842-850):
the block is entered iff in some lane some body has
`lastIteration > iterationIndex - 2`. -/
def impulsesBlockProductive (bodies : ℕ → SolveBody) (lanes : List ContactJoint)
    (iterationIndex : ℤ) : Bool :=
  lanes.any fun j =>
    decide (iterationIndex - 2 < (bodies j.body1Index).lastIteration) ||
    decide (iterationIndex - 2 < (bodies j.body2Index).lastIteration)

/-- One block of `SolveJointsImpulsesSoA`: if `none(body_productive)` the
block is skipped (`continue`), otherwise every lane is solved. -/
def solveJointsImpulsesBlock (bodies : ℕ → SolveBody) (lanes : List ContactJoint)
    (iterationIndex : ℤ) : (ℕ → SolveBody) × List ContactJoint × Bool :=
  if impulsesBlockProductive bodies lanes iterationIndex then
    solveLanesImpulses bodies lanes iterationIndex
  else
    (bodies, lanes, false)

/-- A full pass of `SolveJointsImpulsesSoA` over a list of lane blocks, in
block order; returns `any(productive_any)`. -/
def solveJointsImpulsesBlocks (bodies : ℕ → SolveBody) (blocks : List (List ContactJoint))
    (iterationIndex : ℤ) : (ℕ → SolveBody) × List (List ContactJoint) × Bool :=
  match blocks with
  | [] => (bodies, [], false)
  | b :: rest =>
    let r := solveJointsImpulsesBlock bodies b iterationIndex
    let rec' := solveJointsImpulsesBlocks r.1 rest iterationIndex
    (rec'.1, r.2.1 :: rec'.2.1, r.2.2 || rec'.2.2)

/-- One lane of `SolveJointsDisplacementSoA` (Solver.cpp lines 1027-1062):
normal limiter only, on the displacement body table, with the clamp
`max(Δ, -accumulatedDisplacing)`. -/
def solveJointDisplacement (body1 body2 : SolveBody) (j : ContactJoint) (iterationIndex : ℤ) :
    SolveBody × SolveBody × ContactJoint × Bool :=
  let dV := j.normalLimiter.dstDisplacingVelocity -
    projectedVelocity j.normalLimiter.coeffs body1 body2
  let displacingDeltaImpulse := max (dV * j.normalLimiter.coeffs.compInvMass)
    (-j.normalLimiter.accumulatedDisplacingImpulse)
  let body1d := applyImpulse1 j.normalLimiter.coeffs body1 displacingDeltaImpulse
  let body2d := applyImpulse2 j.normalLimiter.coeffs body2 displacingDeltaImpulse
  let accumulated := j.normalLimiter.accumulatedDisplacingImpulse + displacingDeltaImpulse
  let productive := kProductiveImpulse < |displacingDeltaImpulse|
  ({ body1d with lastIteration := if productive then iterationIndex else body1.lastIteration },
   { body2d with lastIteration := if productive then iterationIndex else body2.lastIteration },
   { j with normalLimiter := { j.normalLimiter with accumulatedDisplacingImpulse := accumulated } },
   productive)

/-- Lanes of one displacement block after the early-out check. -/
def solveLanesDisplacement (bodies : ℕ → SolveBody) (lanes : List ContactJoint)
    (iterationIndex : ℤ) : (ℕ → SolveBody) × List ContactJoint × Bool :=
  match lanes with
  | [] => (bodies, [], false)
  | j :: rest =>
    let r := solveJointDisplacement (bodies j.body1Index) (bodies j.body2Index) j iterationIndex
    let bodies' := storeBodies bodies j.body1Index j.body2Index r.1 r.2.1
    let rec' := solveLanesDisplacement bodies' rest iterationIndex
    (rec'.1, r.2.2.1 :: rec'.2.1, r.2.2.2 || rec'.2.2)

/-- One block of `SolveJointsDisplacementSoA` with its early-out
(lines 1000-1008), reading `lastDisplacementIteration` from the
displacement body table. -/
def solveJointsDisplacementBlock (bodies : ℕ → SolveBody) (lanes : List ContactJoint)
    (iterationIndex : ℤ) : (ℕ → SolveBody) × List ContactJoint × Bool :=
  if impulsesBlockProductive bodies lanes iterationIndex then
    solveLanesDisplacement bodies lanes iterationIndex
  else
    (bodies, lanes, false)

/-- A full pass of `SolveJointsDisplacementSoA` over a list of lane blocks. -/
def solveJointsDisplacementBlocks (bodies : ℕ → SolveBody) (blocks : List (List ContactJoint))
    (iterationIndex : ℤ) : (ℕ → SolveBody) × List (List ContactJoint) × Bool :=
  match blocks with
  | [] => (bodies, [], false)
  | b :: rest =>
    let r := solveJointsDisplacementBlock bodies b iterationIndex
    let rec' := solveJointsDisplacementBlocks r.1 rest iterationIndex
    (rec'.1, r.2.1 :: rec'.2.1, r.2.2 || rec'.2.2)

/-- One joint of `PreStepJointsSoA` (Solver.cpp lines 743-808): apply both
accumulated impulses to the body velocities (warm start); `lastIteration`
is loaded and stored back unchanged. -/
def preStepJoint (body1 body2 : SolveBody) (j : ContactJoint) : SolveBody × SolveBody :=
  let b1n := applyImpulse1 j.normalLimiter.coeffs body1 j.normalLimiter.accumulatedImpulse
  let b2n := applyImpulse2 j.normalLimiter.coeffs body2 j.normalLimiter.accumulatedImpulse
  let b1f := applyImpulse1 j.frictionLimiter.coeffs b1n j.frictionLimiter.accumulatedImpulse
  let b2f := applyImpulse2 j.frictionLimiter.coeffs b2n j.frictionLimiter.accumulatedImpulse
  (b1f, b2f)

/-- `PreStepJointsSoA` over the joint list (scalar order). -/
def preStepJoints (bodies : ℕ → SolveBody) (joints : List ContactJoint) : ℕ → SolveBody :=
  match joints with
  | [] => bodies
  | j :: rest =>
    let r := preStepJoint (bodies j.body1Index) (bodies j.body2Index) j
    preStepJoints (storeBodies bodies j.body1Index j.body2Index r.1 r.2) rest

/-- The impulse iteration loop of `SolveJointsSoA` (Solver.cpp lines 94-106):
run up to `count` passes starting at `iterationIndex`, stopping after the
first pass that reports not productive (that pass's sub-threshold updates
are kept). -/
def solveImpulseIterations (bodies : ℕ → SolveBody) (blocks : List (List ContactJoint))
    (iterationIndex : ℤ) (count : ℕ) : (ℕ → SolveBody) × List (List ContactJoint) :=
  match count with
  | 0 => (bodies, blocks)
  | n + 1 =>
    let r := solveJointsImpulsesBlocks bodies blocks iterationIndex
    if r.2.2 then solveImpulseIterations r.1 r.2.1 (iterationIndex + 1) n
    else (r.1, r.2.1)

/-- The displacement iteration loop of `SolveJointsSoA` (lines 108-120). -/
def solveDisplacementIterations (bodies : ℕ → SolveBody) (blocks : List (List ContactJoint))
    (iterationIndex : ℤ) (count : ℕ) : (ℕ → SolveBody) × List (List ContactJoint) :=
  match count with
  | 0 => (bodies, blocks)
  | n + 1 =>
    let r := solveJointsDisplacementBlocks bodies blocks iterationIndex
    if r.2.2 then solveDisplacementIterations r.1 r.2.1 (iterationIndex + 1) n
    else (r.1, r.2.1)

/-- `SolvePrepareSoA` body copy-in, params slot (lines 240-244). -/
def solveBodyParamsOf (b : RigidBody) : SolveBodyParams :=
  ⟨b.invMass, b.invInertia, b.posX, b.posY, b.xVectorX, b.xVectorY, b.yVectorX, b.yVectorY⟩

/-- `SolvePrepareSoA` body copy-in, impulse slot with `lastIteration = -1`
(lines 246-248). -/
def solveBodyImpulseOf (b : RigidBody) : SolveBody :=
  ⟨b.velocityX, b.velocityY, b.angularVelocity, -1⟩

/-- `SolvePrepareSoA` body copy-in, displacement slot (lines 250-252). -/
def solveBodyDisplacementOf (b : RigidBody) : SolveBody :=
  ⟨b.displacingVelocityX, b.displacingVelocityY, b.displacingAngularVelocity, -1⟩

/-- The scalar packing (`N = 1`): every packed block holds one joint, in
`joint_index` order, which for `groupSizeTarget == 1` is the input order. -/
def singletonBlocks (joints : List ContactJoint) : List (List ContactJoint) :=
  joints.map fun j => [j]

/-- `iterationSum` of `SolveFinishSoA` (lines 349-361). -/
def solveFinishIterationSum (impulse displacement : ℕ → SolveBody)
    (joints : List ContactJoint) : ℤ :=
  joints.foldl (fun s j =>
    s + (max (impulse j.body1Index).lastIteration (impulse j.body2Index).lastIteration + 2)
      + (max (displacement j.body1Index).lastIteration
             (displacement j.body2Index).lastIteration + 2)) 0

/-- The iteration metric returned by `SolveFinishSoA` (line 363):
`float(iterationSum) / float(jointCount)`.  With `jointCount = 0` the
source divides `0.0f / 0.0f`, which is IEEE NaN; the embedding has no NaN
value, so that case is `none`. -/
def solveFinishMetric (impulse displacement : ℕ → SolveBody)
    (joints : List ContactJoint) : Option ℚ :=
  if joints.length = 0 then none
  else some ((solveFinishIterationSum impulse displacement joints : ℚ) / (joints.length : ℚ))

/-- Result of one `solve` call: the written-back body array, the joint list
with the written-back accumulated impulses, and the iteration metric. -/
structure SolveOutput where
  bodies : ℕ → RigidBody
  contactJoints : List ContactJoint
  iterationMetric : Option ℚ

/-- `SolveJointsSoA` at lane width 1 (`SolveJointsSoA_Scalar`,
Solver.cpp lines 56-61 and 79-123): Prepare copies the bodies into the
three tables (`groupSizeTarget == 1` makes `joint_index` the identity and
`groupOffset = jointCount`, so the packed table is the joint list in input
order and the whole range is solved at width 1); Refresh, PreStep, the two
iteration loops, and Finish, which writes `velocity`, `angularVelocity`,
`displacingVelocity`, `displacingAngularVelocity` back to the first
`bodiesCount` bodies, scatters the accumulated impulses back to the joints,
and computes the iteration metric. -/
def solveScalar (bodies : ℕ → RigidBody) (bodiesCount : ℕ)
    (contactPoints : ℕ → ContactPoint) (contactJoints : List ContactJoint)
    (contactIterationsCount penetrationIterationsCount : ℕ) : SolveOutput :=
  let params := fun i => solveBodyParamsOf (bodies i)
  let impulse0 := fun i => solveBodyImpulseOf (bodies i)
  let displacement0 := fun i => solveBodyDisplacementOf (bodies i)
  let joints1 := contactJoints.map (refreshJoint params impulse0 contactPoints)
  let impulse1 := preStepJoints impulse0 joints1
  let ri := solveImpulseIterations impulse1 (singletonBlocks joints1) 0 contactIterationsCount
  let rd := solveDisplacementIterations displacement0 ri.2 0 penetrationIterationsCount
  let jointsF := rd.2.flatten
  { bodies := fun i =>
      if i < bodiesCount then
        { bodies i with
          velocityX := (ri.1 i).velocityX
          velocityY := (ri.1 i).velocityY
          angularVelocity := (ri.1 i).angularVelocity
          displacingVelocityX := (rd.1 i).velocityX
          displacingVelocityY := (rd.1 i).velocityY
          displacingAngularVelocity := (rd.1 i).angularVelocity }
      else bodies i
    contactJoints := jointsF
    iterationMetric := solveFinishMetric ri.1 rd.1 jointsF }

/-- Swap-pop compaction of the remaining-joints list
(`jointGroup_joints[i] = jointGroup_joints[size - 1]; size--`,
Solver.cpp lines 173-174). -/
def swapPop (l : List ℕ) (i : ℕ) : List ℕ :=
  (l.set i (l.getLast?.getD 0)).dropLast

theorem swapPop_length (l : List ℕ) (i : ℕ) : (swapPop l i).length = l.length - 1 := by
  simp [swapPop]

/-- The inner gathering loop of `SolvePrepareIndicesSoA` (lines 160-180):
scan `remaining` from position `i`; a joint both of whose bodies carry a
tag below the current one is claimed (both bodies tagged, the index
appended to the group, the slot swap-popped), otherwise the scan moves on;
stop when the scan runs out or the group reaches `N`. -/
def gatherGroup (joints : ℕ → ContactJoint) (tag N : ℕ) (bodiesTag : ℕ → ℕ)
    (remaining : List ℕ) (i : ℕ) (acc : List ℕ) : (ℕ → ℕ) × List ℕ × List ℕ :=
  if h : i < remaining.length ∧ acc.length < N then
    if bodiesTag (joints (remaining.get ⟨i, h.1⟩)).body1Index < tag ∧
       bodiesTag (joints (remaining.get ⟨i, h.1⟩)).body2Index < tag then
      gatherGroup joints tag N
        (Function.update
          (Function.update bodiesTag (joints (remaining.get ⟨i, h.1⟩)).body1Index tag)
          (joints (remaining.get ⟨i, h.1⟩)).body2Index tag)
        (swapPop remaining i) i (acc ++ [remaining.get ⟨i, h.1⟩])
    else
      gatherGroup joints tag N bodiesTag remaining (i + 1) acc
  else
    (bodiesTag, remaining, acc)
termination_by remaining.length - i
decreasing_by
  · have := swapPop_length remaining i
    omega
  · omega

theorem gatherGroup_length (joints : ℕ → ContactJoint) (tag N : ℕ) (bodiesTag : ℕ → ℕ)
    (remaining : List ℕ) (i : ℕ) (acc : List ℕ) :
    (gatherGroup joints tag N bodiesTag remaining i acc).2.1.length +
      (gatherGroup joints tag N bodiesTag remaining i acc).2.2.length =
      remaining.length + acc.length := by
  induction bodiesTag, remaining, i, acc using gatherGroup.induct joints tag N with
  | case1 bodiesTag remaining i acc h accept ih =>
    rw [gatherGroup, dif_pos h, if_pos accept]
    have := swapPop_length remaining i
    simp only [List.length_append, List.length_cons, List.length_nil] at ih ⊢
    omega
  | case2 bodiesTag remaining i acc h reject ih =>
    rw [gatherGroup, dif_pos h, if_neg reject]
    exact ih
  | case3 bodiesTag remaining i acc h =>
    rw [gatherGroup, dif_neg h]

/-- The outer grouping loop of `SolvePrepareIndicesSoA` (lines 153-186):
while at least `groupSizeTarget` joints remain, gather one group under a
fresh tag; append the group to the output; stop after a short group.
Returns the per-round groups, in order, and the leftover remaining list. -/
def groupLoop (joints : ℕ → ContactJoint) (N : ℕ) (bodiesTag : ℕ → ℕ) (tag : ℕ)
    (remaining : List ℕ) : List (List ℕ) × List ℕ :=
  if h : N ≤ remaining.length ∧ 0 < N then
    if h2 : (gatherGroup joints (tag + 1) N bodiesTag remaining 0 []).2.2.length = N then
      let rest := groupLoop joints N (gatherGroup joints (tag + 1) N bodiesTag remaining 0 []).1
        (tag + 1) (gatherGroup joints (tag + 1) N bodiesTag remaining 0 []).2.1
      ((gatherGroup joints (tag + 1) N bodiesTag remaining 0 []).2.2 :: rest.1, rest.2)
    else
      ([(gatherGroup joints (tag + 1) N bodiesTag remaining 0 []).2.2],
       (gatherGroup joints (tag + 1) N bodiesTag remaining 0 []).2.1)
  else
    ([], remaining)
termination_by remaining.length
decreasing_by
  have hl := gatherGroup_length joints (tag + 1) N bodiesTag remaining 0 []
  simp only [List.length_nil] at hl
  omega

/-- `SolvePrepareIndicesSoA` (Solver.cpp lines 125-194): for
`groupSizeTarget == 1` the identity permutation with
`groupOffset = jointCount`; otherwise run the grouping loop on `[0,
jointCount)` with all body tags zeroed, append the leftover joints
sequentially, and return `(groupOffset / N) * N`.  The body-tag table is a
total map (the source zeroes `jointGroup_bodies[0, bodiesCount)` and only
indexes it with valid body indices). -/
def solvePrepareIndicesSoA (joints : ℕ → ContactJoint) (jointCount _bodiesCount N : ℕ) :
    List ℕ × ℕ :=
  if N = 1 then (List.range jointCount, jointCount)
  else
    let r := groupLoop joints N (fun _ => 0) 0 (List.range jointCount)
    (r.1.flatten ++ r.2, r.1.flatten.length / N * N)

/-- The `N` joint indices of aligned window `m` of `joint_index`, expanded
to their `2N` body indices. -/
def windowBodyIndices (joints : ℕ → ContactJoint) (jointIndex : List ℕ) (N m : ℕ) :
    List ℕ :=
  ((jointIndex.drop (m * N)).take N).flatMap fun i =>
    [(joints i).body1Index, (joints i).body2Index]

/-- `SolvePrepareSoA` sizes the packed joint table with
`joint_packed.resize(jointCount)` (Solver.cpp line 260), i.e. one
`ContactJointPacked<N>` record per joint.  `AlignedArray<T>::resize` lives
in a base header that is not among the sources here; modelled from the
spec's container contract: resize sets the element count to its argument. -/
def solvePrepareSoA_packedLen (jointCount : ℕ) : ℕ := jointCount

/-- The lane-block count the specification states for the packed table:
`ceil(jointCount / N)`. -/
def packedLenSpec (jointCount N : ℕ) : ℕ := (jointCount + N - 1) / N

section InvariantLemmas

/-- The non-tensile clamp: `acc + max(Δ, -acc)` is never negative. -/
theorem clampedAccumulate_nonneg (acc d : ℚ) : 0 ≤ acc + max d (-acc) := by
  have := le_max_right d (-acc)
  linarith

/-- The friction-cone clamp: whatever the raw friction delta, the clamped
accumulated friction impulse is bounded by the (non-negative) bound `b`. -/
theorem frictionClamp_bound (F d b : ℚ) (hb : 0 ≤ b) :
    |F + (if b < |F + d| then flipsign b (F + d) - F else d)| ≤ b := by
  split
  · rw [add_sub_cancel, flipsign]
    split
    · rw [abs_neg, abs_of_nonneg hb]
    · rw [abs_of_nonneg hb]
  · rename_i hc
    push_neg at hc
    exact hc

/-- Invariant of one impulse update: after `solveJointImpulse` the
accumulated normal impulse is non-negative (the clamp makes the new value
`max(acc + Δraw, 0)`) and the accumulated friction impulse lies inside the
friction cone exactly. -/
theorem solveJointImpulse_acc (body1 body2 : SolveBody) (j : ContactJoint)
    (iterationIndex : ℤ) :
    0 ≤ (solveJointImpulse body1 body2 j iterationIndex).2.2.1.normalLimiter.accumulatedImpulse ∧
    |(solveJointImpulse body1 body2 j iterationIndex).2.2.1.frictionLimiter.accumulatedImpulse| ≤
      (solveJointImpulse body1 body2 j iterationIndex).2.2.1.normalLimiter.accumulatedImpulse *
        kFrictionCoefficient := by
  simp only [solveJointImpulse]
  refine ⟨clampedAccumulate_nonneg _ _, ?_⟩
  exact frictionClamp_bound _ _ _
    (mul_nonneg (clampedAccumulate_nonneg _ _) (by norm_num [kFrictionCoefficient]))

/-- One impulse update does not touch the displacing state or the limiter
coefficients of the joint. -/
theorem solveJointImpulse_frame (body1 body2 : SolveBody) (j : ContactJoint)
    (iterationIndex : ℤ) :
    (solveJointImpulse body1 body2 j iterationIndex).2.2.1.normalLimiter.accumulatedDisplacingImpulse =
      j.normalLimiter.accumulatedDisplacingImpulse ∧
    (solveJointImpulse body1 body2 j iterationIndex).2.2.1.body1Index = j.body1Index ∧
    (solveJointImpulse body1 body2 j iterationIndex).2.2.1.body2Index = j.body2Index := by
  exact ⟨rfl, rfl, rfl⟩

/-- One displacement update leaves the accumulated displacing impulse
non-negative and does not touch the normal / friction accumulated
impulses. -/
theorem solveJointDisplacement_acc (body1 body2 : SolveBody) (j : ContactJoint)
    (iterationIndex : ℤ) :
    0 ≤ (solveJointDisplacement body1 body2 j
        iterationIndex).2.2.1.normalLimiter.accumulatedDisplacingImpulse ∧
    (solveJointDisplacement body1 body2 j
        iterationIndex).2.2.1.normalLimiter.accumulatedImpulse =
      j.normalLimiter.accumulatedImpulse ∧
    (solveJointDisplacement body1 body2 j iterationIndex).2.2.1.frictionLimiter =
      j.frictionLimiter := by
  refine ⟨?_, rfl, rfl⟩
  simp only [solveJointDisplacement]
  exact clampedAccumulate_nonneg _ _

end InvariantLemmas

section PassPreservation

variable {P : ContactJoint → Prop}

/-- A joint property closed under single impulse updates survives the
sequential lane fold. -/
theorem solveLanesImpulses_inv (idx : ℤ)
    (hstep : ∀ b1 b2 j, P j → P (solveJointImpulse b1 b2 j idx).2.2.1) :
    ∀ (lanes : List ContactJoint) (bodies : ℕ → SolveBody),
      (∀ j ∈ lanes, P j) →
      ∀ j' ∈ (solveLanesImpulses bodies lanes idx).2.1, P j' := by
  intro lanes
  induction lanes with
  | nil => intro bodies _ j' hj'; simp [solveLanesImpulses] at hj'
  | cons j rest ih =>
    intro bodies hP j' hj'
    rw [solveLanesImpulses] at hj'
    simp only [List.mem_cons] at hj'
    rcases hj' with h | h
    · exact h ▸ hstep _ _ _ (hP j (by simp))
    · exact ih _ (fun a ha => hP a (by simp [ha])) _ h

/-- The property survives one block (skipped or solved). -/
theorem solveJointsImpulsesBlock_inv (idx : ℤ)
    (hstep : ∀ b1 b2 j, P j → P (solveJointImpulse b1 b2 j idx).2.2.1)
    (lanes : List ContactJoint) (bodies : ℕ → SolveBody)
    (hP : ∀ j ∈ lanes, P j) :
    ∀ j' ∈ (solveJointsImpulsesBlock bodies lanes idx).2.1, P j' := by
  rw [solveJointsImpulsesBlock]
  split
  · exact solveLanesImpulses_inv idx hstep lanes bodies hP
  · exact hP

/-- The property survives a whole impulse pass over the blocks. -/
theorem solveJointsImpulsesBlocks_inv (idx : ℤ)
    (hstep : ∀ b1 b2 j, P j → P (solveJointImpulse b1 b2 j idx).2.2.1) :
    ∀ (blocks : List (List ContactJoint)) (bodies : ℕ → SolveBody),
      (∀ b ∈ blocks, ∀ j ∈ b, P j) →
      ∀ b' ∈ (solveJointsImpulsesBlocks bodies blocks idx).2.1, ∀ j' ∈ b', P j' := by
  intro blocks
  induction blocks with
  | nil => intro bodies _ b' hb'; simp [solveJointsImpulsesBlocks] at hb'
  | cons b rest ih =>
    intro bodies hP b' hb'
    rw [solveJointsImpulsesBlocks] at hb'
    simp only [List.mem_cons] at hb'
    rcases hb' with h | h
    · exact h ▸ solveJointsImpulsesBlock_inv idx hstep b bodies (hP b (by simp))
    · exact ih _ (fun a ha => hP a (by simp [ha])) _ h

/-- The property survives the whole impulse iteration loop. -/
theorem solveImpulseIterations_inv
    (hstep : ∀ b1 b2 j idx, P j → P (solveJointImpulse b1 b2 j idx).2.2.1) :
    ∀ (count : ℕ) (bodies : ℕ → SolveBody) (blocks : List (List ContactJoint)) (idx : ℤ),
      (∀ b ∈ blocks, ∀ j ∈ b, P j) →
      ∀ b' ∈ (solveImpulseIterations bodies blocks idx count).2, ∀ j' ∈ b', P j' := by
  intro count
  induction count with
  | zero => intro bodies blocks idx hP; simpa [solveImpulseIterations] using hP
  | succ n ih =>
    intro bodies blocks idx hP
    rw [solveImpulseIterations]
    split
    · exact ih _ _ _ (solveJointsImpulsesBlocks_inv idx (fun b1 b2 j => hstep b1 b2 j idx)
        blocks bodies hP)
    · exact solveJointsImpulsesBlocks_inv idx (fun b1 b2 j => hstep b1 b2 j idx) blocks bodies hP

/-- Displacement analogue of `solveLanesImpulses_inv`. -/
theorem solveLanesDisplacement_inv (idx : ℤ)
    (hstep : ∀ b1 b2 j, P j → P (solveJointDisplacement b1 b2 j idx).2.2.1) :
    ∀ (lanes : List ContactJoint) (bodies : ℕ → SolveBody),
      (∀ j ∈ lanes, P j) →
      ∀ j' ∈ (solveLanesDisplacement bodies lanes idx).2.1, P j' := by
  intro lanes
  induction lanes with
  | nil => intro bodies _ j' hj'; simp [solveLanesDisplacement] at hj'
  | cons j rest ih =>
    intro bodies hP j' hj'
    rw [solveLanesDisplacement] at hj'
    simp only [List.mem_cons] at hj'
    rcases hj' with h | h
    · exact h ▸ hstep _ _ _ (hP j (by simp))
    · exact ih _ (fun a ha => hP a (by simp [ha])) _ h

/-- Displacement analogue of `solveJointsImpulsesBlock_inv`. -/
theorem solveJointsDisplacementBlock_inv (idx : ℤ)
    (hstep : ∀ b1 b2 j, P j → P (solveJointDisplacement b1 b2 j idx).2.2.1)
    (lanes : List ContactJoint) (bodies : ℕ → SolveBody)
    (hP : ∀ j ∈ lanes, P j) :
    ∀ j' ∈ (solveJointsDisplacementBlock bodies lanes idx).2.1, P j' := by
  rw [solveJointsDisplacementBlock]
  split
  · exact solveLanesDisplacement_inv idx hstep lanes bodies hP
  · exact hP

/-- Displacement analogue of `solveJointsImpulsesBlocks_inv`. -/
theorem solveJointsDisplacementBlocks_inv (idx : ℤ)
    (hstep : ∀ b1 b2 j, P j → P (solveJointDisplacement b1 b2 j idx).2.2.1) :
    ∀ (blocks : List (List ContactJoint)) (bodies : ℕ → SolveBody),
      (∀ b ∈ blocks, ∀ j ∈ b, P j) →
      ∀ b' ∈ (solveJointsDisplacementBlocks bodies blocks idx).2.1, ∀ j' ∈ b', P j' := by
  intro blocks
  induction blocks with
  | nil => intro bodies _ b' hb'; simp [solveJointsDisplacementBlocks] at hb'
  | cons b rest ih =>
    intro bodies hP b' hb'
    rw [solveJointsDisplacementBlocks] at hb'
    simp only [List.mem_cons] at hb'
    rcases hb' with h | h
    · exact h ▸ solveJointsDisplacementBlock_inv idx hstep b bodies (hP b (by simp))
    · exact ih _ (fun a ha => hP a (by simp [ha])) _ h

/-- Displacement analogue of `solveImpulseIterations_inv`. -/
theorem solveDisplacementIterations_inv
    (hstep : ∀ b1 b2 j idx, P j → P (solveJointDisplacement b1 b2 j idx).2.2.1) :
    ∀ (count : ℕ) (bodies : ℕ → SolveBody) (blocks : List (List ContactJoint)) (idx : ℤ),
      (∀ b ∈ blocks, ∀ j ∈ b, P j) →
      ∀ b' ∈ (solveDisplacementIterations bodies blocks idx count).2, ∀ j' ∈ b', P j' := by
  intro count
  induction count with
  | zero => intro bodies blocks idx hP; simpa [solveDisplacementIterations] using hP
  | succ n ih =>
    intro bodies blocks idx hP
    rw [solveDisplacementIterations]
    split
    · exact ih _ _ _ (solveJointsDisplacementBlocks_inv idx (fun b1 b2 j => hstep b1 b2 j idx)
        blocks bodies hP)
    · exact solveJointsDisplacementBlocks_inv idx (fun b1 b2 j => hstep b1 b2 j idx) blocks bodies hP

/-- A joint property closed under both kernels and established by the
Refresh of the prepare phase holds for every joint `solve` returns. -/
theorem solveScalar_joints_inv
    (histep : ∀ b1 b2 j idx, P j → P (solveJointImpulse b1 b2 j idx).2.2.1)
    (hdstep : ∀ b1 b2 j idx, P j → P (solveJointDisplacement b1 b2 j idx).2.2.1)
    (bodies : ℕ → RigidBody) (bodiesCount : ℕ) (contactPoints : ℕ → ContactPoint)
    (contactJoints : List ContactJoint) (ci pi : ℕ)
    (hinit : ∀ j ∈ contactJoints,
      P (refreshJoint (fun i => solveBodyParamsOf (bodies i))
          (fun i => solveBodyImpulseOf (bodies i)) contactPoints j)) :
    ∀ j ∈ (solveScalar bodies bodiesCount contactPoints contactJoints ci pi).contactJoints,
      P j := by
  intro j hj
  simp only [solveScalar, List.mem_flatten] at hj
  obtain ⟨b, hb, hjb⟩ := hj
  refine solveDisplacementIterations_inv hdstep pi _ _ 0 ?_ b hb j hjb
  intro b' hb' j' hj'
  refine solveImpulseIterations_inv histep ci _ _ 0 ?_ b' hb' j' hj'
  intro b'' hb'' j'' hj''
  simp only [singletonBlocks, List.mem_map] at hb''
  obtain ⟨a, ha, rfl⟩ := hb''
  simp only [List.mem_singleton] at hj''
  subst hj''
  obtain ⟨a0, ha0, rfl⟩ := ha
  exact hinit a0 ha0

end PassPreservation

/-- `RefreshJointsSoA` does not write the normal / friction accumulated
impulses (warm start) and zeroes the accumulated displacing impulse. -/
theorem refreshJoint_acc (params : ℕ → SolveBodyParams) (bodiesImp : ℕ → SolveBody)
    (cps : ℕ → ContactPoint) (j : ContactJoint) :
    (refreshJoint params bodiesImp cps j).normalLimiter.accumulatedImpulse =
      j.normalLimiter.accumulatedImpulse ∧
    (refreshJoint params bodiesImp cps j).frictionLimiter.accumulatedImpulse =
      j.frictionLimiter.accumulatedImpulse ∧
    (refreshJoint params bodiesImp cps j).normalLimiter.accumulatedDisplacingImpulse = 0 :=
  ⟨rfl, rfl, rfl⟩

/-- C1: friction cone invariant.  If every joint enters with
`normal.accumulated ≥ 0` and `|friction.accumulated| ≤ 0.3 · normal.accumulated`,
then after each impulse pass (`SolveJointsImpulsesSoA`, and the identical
`AoS` arithmetic) and after `solve()` returns, every joint satisfies
`|friction.accumulated| ≤ 0.3 · normal.accumulated + 1e-5` (the embedding
proves the exact cone; the `1e-5` slack of the claim follows). -/
theorem frictionCone_invariant :
    (∀ (bodies : ℕ → SolveBody) (blocks : List (List ContactJoint)) (idx : ℤ),
        (∀ b ∈ blocks, ∀ j ∈ b, 0 ≤ j.normalLimiter.accumulatedImpulse ∧
          |j.frictionLimiter.accumulatedImpulse| ≤
            kFrictionCoefficient * j.normalLimiter.accumulatedImpulse) →
        ∀ b' ∈ (solveJointsImpulsesBlocks bodies blocks idx).2.1, ∀ j ∈ b',
          |j.frictionLimiter.accumulatedImpulse| ≤
            kFrictionCoefficient * j.normalLimiter.accumulatedImpulse + 1 / 100000) ∧
    (∀ (bodies : ℕ → RigidBody) (bodiesCount : ℕ) (cps : ℕ → ContactPoint)
        (joints : List ContactJoint) (ci pi : ℕ),
        (∀ j ∈ joints, 0 ≤ j.normalLimiter.accumulatedImpulse ∧
          |j.frictionLimiter.accumulatedImpulse| ≤
            kFrictionCoefficient * j.normalLimiter.accumulatedImpulse) →
        ∀ j ∈ (solveScalar bodies bodiesCount cps joints ci pi).contactJoints,
          |j.frictionLimiter.accumulatedImpulse| ≤
            kFrictionCoefficient * j.normalLimiter.accumulatedImpulse + 1 / 100000) := by
  have histep : ∀ (b1 b2 : SolveBody) (j : ContactJoint) (idx : ℤ),
      (0 ≤ j.normalLimiter.accumulatedImpulse ∧
        |j.frictionLimiter.accumulatedImpulse| ≤
          kFrictionCoefficient * j.normalLimiter.accumulatedImpulse) →
      (0 ≤ (solveJointImpulse b1 b2 j idx).2.2.1.normalLimiter.accumulatedImpulse ∧
        |(solveJointImpulse b1 b2 j idx).2.2.1.frictionLimiter.accumulatedImpulse| ≤
          kFrictionCoefficient *
            (solveJointImpulse b1 b2 j idx).2.2.1.normalLimiter.accumulatedImpulse) := by
    intro b1 b2 j idx _
    obtain ⟨h1, h2⟩ := solveJointImpulse_acc b1 b2 j idx
    exact ⟨h1, by rw [mul_comm]; exact h2⟩
  have hdstep : ∀ (b1 b2 : SolveBody) (j : ContactJoint) (idx : ℤ),
      (0 ≤ j.normalLimiter.accumulatedImpulse ∧
        |j.frictionLimiter.accumulatedImpulse| ≤
          kFrictionCoefficient * j.normalLimiter.accumulatedImpulse) →
      (0 ≤ (solveJointDisplacement b1 b2 j idx).2.2.1.normalLimiter.accumulatedImpulse ∧
        |(solveJointDisplacement b1 b2 j idx).2.2.1.frictionLimiter.accumulatedImpulse| ≤
          kFrictionCoefficient *
            (solveJointDisplacement b1 b2 j idx).2.2.1.normalLimiter.accumulatedImpulse) := by
    intro b1 b2 j idx hP
    obtain ⟨_, hacc, hfr⟩ := solveJointDisplacement_acc b1 b2 j idx
    rw [hacc, hfr]
    exact hP
  constructor
  · intro bodies blocks idx hP b' hb' j hj
    have := solveJointsImpulsesBlocks_inv idx (fun b1 b2 j => histep b1 b2 j idx)
      blocks bodies hP b' hb' j hj
    have h0 : (0 : ℚ) < 1 / 100000 := by norm_num
    linarith [this.2]
  · intro bodies bodiesCount cps joints ci pi hP j hj
    have := solveScalar_joints_inv histep hdstep bodies bodiesCount cps joints ci pi
      (fun j hjm => by
        obtain ⟨e1, e2, _⟩ := refreshJoint_acc (fun i => solveBodyParamsOf (bodies i))
          (fun i => solveBodyImpulseOf (bodies i)) cps j
        rw [e1, e2]
        exact hP j hjm) j hj
    have h0 : (0 : ℚ) < 1 / 100000 := by norm_num
    linarith [this.2]

/-- Sample limiter coefficients for a unit-mass head-on contact along x. -/
def sampleCoeffs : LimiterCoeffs :=
  ⟨1, 0, -1, 0, 0, 0, 1, 0, -1, 0, 0, 0, 1 / 2⟩

/-- Sample warm-started joint sitting exactly on the friction cone. -/
def sampleJoint : ContactJoint :=
  { body1Index := 0
    body2Index := 1
    collisionIndex := 0
    normalLimiter :=
      { coeffs := sampleCoeffs
        accumulatedImpulse := 1
        dstVelocity := 0
        dstDisplacingVelocity := 0
        accumulatedDisplacingImpulse := 0 }
    frictionLimiter := { coeffs := sampleCoeffs, accumulatedImpulse := 3 / 10 } }

/-- Sample rigid body. -/
def sampleBody : RigidBody := ⟨1, 1, 0, 0, 1, 0, 0, 1, 1, 0, 0, 0, 0, 0⟩

/-- Sample contact point. -/
def sampleContactPoint : ContactPoint := ⟨0, -1, 0, 1, 0, 1⟩

theorem frictionCone_invariant_witness :
    (∀ j ∈ [sampleJoint], 0 ≤ j.normalLimiter.accumulatedImpulse ∧
      |j.frictionLimiter.accumulatedImpulse| ≤
        kFrictionCoefficient * j.normalLimiter.accumulatedImpulse) ∧
    (∀ j ∈ (solveScalar (fun _ => sampleBody) 2 (fun _ => sampleContactPoint)
        [sampleJoint] 4 4).contactJoints,
      |j.frictionLimiter.accumulatedImpulse| ≤
        kFrictionCoefficient * j.normalLimiter.accumulatedImpulse + 1 / 100000) :=
  ⟨by norm_num [sampleJoint, kFrictionCoefficient, abs_le], frictionCone_invariant.2
    (fun _ => sampleBody) 2 (fun _ => sampleContactPoint) [sampleJoint] 4 4
    (by norm_num [sampleJoint, kFrictionCoefficient, abs_le])⟩

/-- C2: normal non-tensile invariant.  If every joint enters `solve` with
`normal.accumulated ≥ 0`, then at every observable point both accumulated
normal impulses are non-negative: after the prepare phase (the source's
"Prepare" scope packs the joints unchanged, then `RefreshJointsSoA` zeroes
the displacing impulse and `PreStepJointsSoA` touches no joint), after each
impulse pass, after each displacement pass, and after `solve()` returns;
the clamps `max(Δ, -accumulated)` preserve this for every joint update. -/
theorem normalNonTensile_invariant :
    (∀ (params : ℕ → SolveBodyParams) (bodiesImp : ℕ → SolveBody)
        (cps : ℕ → ContactPoint) (j : ContactJoint),
        0 ≤ j.normalLimiter.accumulatedImpulse →
        0 ≤ (refreshJoint params bodiesImp cps j).normalLimiter.accumulatedImpulse ∧
        0 ≤ (refreshJoint params bodiesImp cps j).normalLimiter.accumulatedDisplacingImpulse) ∧
    (∀ (bodies : ℕ → SolveBody) (blocks : List (List ContactJoint)) (idx : ℤ),
        (∀ b ∈ blocks, ∀ j ∈ b, 0 ≤ j.normalLimiter.accumulatedImpulse ∧
          0 ≤ j.normalLimiter.accumulatedDisplacingImpulse) →
        ∀ b' ∈ (solveJointsImpulsesBlocks bodies blocks idx).2.1, ∀ j ∈ b',
          0 ≤ j.normalLimiter.accumulatedImpulse ∧
          0 ≤ j.normalLimiter.accumulatedDisplacingImpulse) ∧
    (∀ (bodies : ℕ → SolveBody) (blocks : List (List ContactJoint)) (idx : ℤ),
        (∀ b ∈ blocks, ∀ j ∈ b, 0 ≤ j.normalLimiter.accumulatedImpulse ∧
          0 ≤ j.normalLimiter.accumulatedDisplacingImpulse) →
        ∀ b' ∈ (solveJointsDisplacementBlocks bodies blocks idx).2.1, ∀ j ∈ b',
          0 ≤ j.normalLimiter.accumulatedImpulse ∧
          0 ≤ j.normalLimiter.accumulatedDisplacingImpulse) ∧
    (∀ (bodies : ℕ → RigidBody) (bodiesCount : ℕ) (cps : ℕ → ContactPoint)
        (joints : List ContactJoint) (ci pi : ℕ),
        (∀ j ∈ joints, 0 ≤ j.normalLimiter.accumulatedImpulse) →
        ∀ j ∈ (solveScalar bodies bodiesCount cps joints ci pi).contactJoints,
          0 ≤ j.normalLimiter.accumulatedImpulse ∧
          0 ≤ j.normalLimiter.accumulatedDisplacingImpulse) := by
  have histep : ∀ (b1 b2 : SolveBody) (j : ContactJoint) (idx : ℤ),
      (0 ≤ j.normalLimiter.accumulatedImpulse ∧
        0 ≤ j.normalLimiter.accumulatedDisplacingImpulse) →
      (0 ≤ (solveJointImpulse b1 b2 j idx).2.2.1.normalLimiter.accumulatedImpulse ∧
        0 ≤ (solveJointImpulse b1 b2 j idx).2.2.1.normalLimiter.accumulatedDisplacingImpulse) := by
    intro b1 b2 j idx hP
    refine ⟨(solveJointImpulse_acc b1 b2 j idx).1, ?_⟩
    rw [(solveJointImpulse_frame b1 b2 j idx).1]
    exact hP.2
  have hdstep : ∀ (b1 b2 : SolveBody) (j : ContactJoint) (idx : ℤ),
      (0 ≤ j.normalLimiter.accumulatedImpulse ∧
        0 ≤ j.normalLimiter.accumulatedDisplacingImpulse) →
      (0 ≤ (solveJointDisplacement b1 b2 j idx).2.2.1.normalLimiter.accumulatedImpulse ∧
        0 ≤ (solveJointDisplacement b1 b2 j idx).2.2.1.normalLimiter.accumulatedDisplacingImpulse) := by
    intro b1 b2 j idx hP
    obtain ⟨h1, h2, _⟩ := solveJointDisplacement_acc b1 b2 j idx
    rw [h2]
    exact ⟨hP.1, h1⟩
  refine ⟨?_, ?_, ?_, ?_⟩
  · intro params bodiesImp cps j h
    obtain ⟨e1, _, e3⟩ := refreshJoint_acc params bodiesImp cps j
    rw [e1, e3]
    exact ⟨h, le_refl 0⟩
  · intro bodies blocks idx hP
    exact solveJointsImpulsesBlocks_inv idx (fun b1 b2 j => histep b1 b2 j idx) blocks bodies hP
  · intro bodies blocks idx hP
    exact solveJointsDisplacementBlocks_inv idx (fun b1 b2 j => hdstep b1 b2 j idx) blocks bodies hP
  · intro bodies bodiesCount cps joints ci pi hP
    exact solveScalar_joints_inv histep hdstep bodies bodiesCount cps joints ci pi
      (fun j hjm => by
        obtain ⟨e1, _, e3⟩ := refreshJoint_acc (fun i => solveBodyParamsOf (bodies i))
          (fun i => solveBodyImpulseOf (bodies i)) cps j
        rw [e1, e3]
        exact ⟨hP j hjm, le_refl 0⟩)

theorem normalNonTensile_invariant_witness :
    (∀ j ∈ [sampleJoint], 0 ≤ j.normalLimiter.accumulatedImpulse) ∧
    (∀ j ∈ (solveScalar (fun _ => sampleBody) 2 (fun _ => sampleContactPoint)
        [sampleJoint] 4 4).contactJoints,
      0 ≤ j.normalLimiter.accumulatedImpulse ∧
      0 ≤ j.normalLimiter.accumulatedDisplacingImpulse) :=
  ⟨by norm_num [sampleJoint], normalNonTensile_invariant.2.2.2
    (fun _ => sampleBody) 2 (fun _ => sampleContactPoint) [sampleJoint] 4 4
    (by norm_num [sampleJoint])⟩

/-- C7: Refresh postcondition.  With `bounce = 0`, `deltaVelocity = 1`,
`maxPenetrationVelocity = 0.1`, `deltaDepth = 1`, `errorReduction = 0.1`
and `dstVel_raw = max(dv - deltaVelocity, 0)`, Refresh sets `dstVelocity`
to `dstVel_raw - maxPenetrationVelocity` iff `depth < deltaDepth`, sets
`dstDisplacingVelocity = errorReduction * max(0, depth - 2 * deltaDepth)`,
resets the accumulated displacing impulse, and leaves the accumulated
normal and friction impulses unchanged (warm start). -/
theorem refreshJoint_postcondition (params : ℕ → SolveBodyParams)
    (bodiesImp : ℕ → SolveBody) (cps : ℕ → ContactPoint) (j : ContactJoint) :
    let body1 := params j.body1Index
    let body2 := params j.body2Index
    let body1v := bodiesImp j.body1Index
    let body2v := bodiesImp j.body2Index
    let cp := cps j.collisionIndex
    let point1X := cp.delta1X + body1.posX
    let point1Y := cp.delta1Y + body1.posY
    let point2X := cp.delta2X + body2.posX
    let point2Y := cp.delta2Y + body2.posY
    let pointVelocity_body1X := (body1.posY - point1Y) * body1v.angularVelocity + body1v.velocityX
    let pointVelocity_body1Y := (point1X - body1.posX) * body1v.angularVelocity + body1v.velocityY
    let pointVelocity_body2X := (body2.posY - point2Y) * body2v.angularVelocity + body2v.velocityX
    let pointVelocity_body2Y := (point2X - body2.posX) * body2v.angularVelocity + body2v.velocityY
    let relativeVelocityX := pointVelocity_body1X - pointVelocity_body2X
    let relativeVelocityY := pointVelocity_body1Y - pointVelocity_body2Y
    let dv := -(0 : ℚ) * (relativeVelocityX * cp.normalX + relativeVelocityY * cp.normalY)
    let depth := (point2X - point1X) * cp.normalX + (point2Y - point1Y) * cp.normalY
    let dstVelRaw := max (dv - 1) 0
    (refreshJoint params bodiesImp cps j).normalLimiter.dstVelocity =
      (if depth < 1 then dstVelRaw - 1 / 10 else dstVelRaw) ∧
    (refreshJoint params bodiesImp cps j).normalLimiter.dstDisplacingVelocity =
      1 / 10 * max 0 (depth - 2 * 1) ∧
    (refreshJoint params bodiesImp cps j).normalLimiter.accumulatedDisplacingImpulse = 0 ∧
    (refreshJoint params bodiesImp cps j).normalLimiter.accumulatedImpulse =
      j.normalLimiter.accumulatedImpulse ∧
    (refreshJoint params bodiesImp cps j).frictionLimiter.accumulatedImpulse =
      j.frictionLimiter.accumulatedImpulse :=
  ⟨rfl, rfl, rfl, rfl, rfl⟩

/-- C8: early out.  A lane block of `SolveJointsImpulsesSoA` is skipped
exactly when in every lane both bodies have
`lastIteration ≤ iterationIndex - 2` (the lane-wise predicate
`lastIteration > iterationIndex - 2` is false everywhere), and a skipped
block returns the body table, the joints, and its productive flag
entirely unchanged. -/
theorem impulses_earlyOut (bodies : ℕ → SolveBody) (lanes : List ContactJoint) (idx : ℤ) :
    (impulsesBlockProductive bodies lanes idx = false ↔
      ∀ j ∈ lanes, (bodies j.body1Index).lastIteration ≤ idx - 2 ∧
        (bodies j.body2Index).lastIteration ≤ idx - 2) ∧
    (impulsesBlockProductive bodies lanes idx = false →
      solveJointsImpulsesBlock bodies lanes idx = (bodies, lanes, false)) := by
  constructor
  · rw [impulsesBlockProductive]
    simp [not_lt]
  · intro h
    rw [solveJointsImpulsesBlock, h]
    simp

theorem impulses_earlyOut_witness :
    (impulsesBlockProductive (fun _ => ⟨0, 0, 0, -1⟩) [sampleJoint] 1 = false) ∧
    solveJointsImpulsesBlock (fun _ => ⟨0, 0, 0, -1⟩) [sampleJoint] 1 =
      ((fun _ => ⟨0, 0, 0, -1⟩), [sampleJoint], false) :=
  ⟨rfl, (impulses_earlyOut (fun _ => ⟨0, 0, 0, -1⟩) [sampleJoint] 1).2 rfl⟩

/-- C9: frame property of the scalar solve.  The caller's body array is
consumed in Prepare and written in Finish, and the only fields Finish
writes are `velocity`, `angularVelocity`, `displacingVelocity`,
`displacingAngularVelocity`; every other body field (position, basis
vectors, inverse mass, inverse inertia) keeps its input value. -/
theorem solveScalar_bodyFrame (bodies : ℕ → RigidBody) (bodiesCount : ℕ)
    (cps : ℕ → ContactPoint) (joints : List ContactJoint) (ci pi : ℕ) (i : ℕ) :
    ((solveScalar bodies bodiesCount cps joints ci pi).bodies i).invMass = (bodies i).invMass ∧
    ((solveScalar bodies bodiesCount cps joints ci pi).bodies i).invInertia = (bodies i).invInertia ∧
    ((solveScalar bodies bodiesCount cps joints ci pi).bodies i).posX = (bodies i).posX ∧
    ((solveScalar bodies bodiesCount cps joints ci pi).bodies i).posY = (bodies i).posY ∧
    ((solveScalar bodies bodiesCount cps joints ci pi).bodies i).xVectorX = (bodies i).xVectorX ∧
    ((solveScalar bodies bodiesCount cps joints ci pi).bodies i).xVectorY = (bodies i).xVectorY ∧
    ((solveScalar bodies bodiesCount cps joints ci pi).bodies i).yVectorX = (bodies i).yVectorX ∧
    ((solveScalar bodies bodiesCount cps joints ci pi).bodies i).yVectorY = (bodies i).yVectorY := by
  simp only [solveScalar]
  split <;> exact ⟨rfl, rfl, rfl, rfl, rfl, rfl, rfl, rfl⟩

/-- C4 counterexample: with an empty contact-joint list the iteration
metric is not `0.0` — `SolveFinishSoA` computes `float(0) / float(0)`,
which is NaN (`none` in the embedding), not `0.0`. -/
theorem solveScalar_empty_metric_not_zero :
    (solveScalar (fun _ => sampleBody) 1 (fun _ => sampleContactPoint) [] 15 15).iterationMetric ≠
      some 0 := by
  decide

/-- C4 amended: for every call of the scalar solve with an empty
contact-joint list, the iteration metric is the undefined division
`0.0f / 0.0f` (IEEE NaN, embedded as `none`), for any body array and
iteration counts. -/
theorem solveScalar_empty_metric (bodies : ℕ → RigidBody) (bodiesCount : ℕ)
    (cps : ℕ → ContactPoint) (ci pi : ℕ) :
    (solveScalar bodies bodiesCount cps [] ci pi).iterationMetric = none := by
  cases ci <;> cases pi <;> rfl

/-- C5 counterexample: `SolvePrepareSoA` resizes the packed table to
`jointCount` records, not to `ceil(jointCount / N)` lane blocks: with 2
joints at lane width 4 the table holds 2 records while the claimed length
is 1. -/
theorem packedLen_counterexample : solvePrepareSoA_packedLen 2 ≠ packedLenSpec 2 4 := by
  decide

/-- C5 amended: the packed table is sized to `jointCount` records; the
spec's `ceil(jointCount / N)` is only the number of lane blocks the solver
actually reads and writes — every packed index `i / N` used by the copy
loops stays below `ceil(jointCount / N)`, which never exceeds the
allocated length. -/
theorem packedLen_amended (jointCount N : ℕ) (hN : 0 < N) :
    solvePrepareSoA_packedLen jointCount = jointCount ∧
    packedLenSpec jointCount N ≤ solvePrepareSoA_packedLen jointCount ∧
    ∀ i < jointCount, i / N < packedLenSpec jointCount N := by
  refine ⟨rfl, ?_, ?_⟩
  · rw [packedLenSpec, solvePrepareSoA_packedLen]
    rcases Nat.eq_zero_or_pos jointCount with h0 | hpos
    · subst h0
      have hz : (N - 1) / N = 0 := Nat.div_eq_of_lt (by omega)
      simp [hz]
    · rw [Nat.div_le_iff_le_mul_add_pred hN]
      have := Nat.le_mul_of_pos_left jointCount hN
      omega
  · intro i hi
    have h1 : i / N ≤ (jointCount - 1) / N := Nat.div_le_div_right (by omega)
    have h2 : jointCount + N - 1 = jointCount - 1 + N := by omega
    rw [packedLenSpec, h2, Nat.add_div_right _ hN]
    omega

theorem packedLen_amended_witness :
    0 < 4 ∧
    (solvePrepareSoA_packedLen 5 = 5 ∧
     packedLenSpec 5 4 ≤ solvePrepareSoA_packedLen 5 ∧
     ∀ i < 5, i / 4 < packedLenSpec 5 4) :=
  ⟨by decide, packedLen_amended 5 4 (by decide)⟩

/-- In a field, `x·x·y = 0` forces `x·y = 0`. -/
theorem sqMul_eq_zero (x y : ℚ) (h : x * x * y = 0) : x * y = 0 := by
  rcases mul_eq_zero.1 h with h1 | h1
  · rcases mul_eq_zero.1 h1 with h2 | h2 <;> simp [h2]
  · simp [h1]

/-- A vanishing composite mass (with physical, non-negative inverse masses)
forces every composite-mass component of the limiter to vanish: the
composite mass is a sum of squares weighted by the inverse masses. -/
theorem limiterCompMass_zero_components (n1X n1Y n2X n2Y w1X w1Y w2X w2Y m1 i1 m2 i2 : ℚ)
    (hm1 : 0 ≤ m1) (hi1 : 0 ≤ i1) (hm2 : 0 ≤ m2) (hi2 : 0 ≤ i2)
    (hk : limiterCompMass n1X n1Y n2X n2Y w1X w1Y w2X w2Y m1 i1 m2 i2 = 0) :
    n1X * m1 = 0 ∧ n1Y * m1 = 0 ∧ (n1X * w1Y - n1Y * w1X) * i1 = 0 ∧
    n2X * m2 = 0 ∧ n2Y * m2 = 0 ∧ (n2X * w2Y - n2Y * w2X) * i2 = 0 := by
  simp only [limiterCompMass] at hk
  have t1 : 0 ≤ n1X * (n1X * m1) := by
    rw [← mul_assoc]; exact mul_nonneg (mul_self_nonneg _) hm1
  have t2 : 0 ≤ n1Y * (n1Y * m1) := by
    rw [← mul_assoc]; exact mul_nonneg (mul_self_nonneg _) hm1
  have t3 : 0 ≤ (n1X * w1Y - n1Y * w1X) * ((n1X * w1Y - n1Y * w1X) * i1) := by
    rw [← mul_assoc]; exact mul_nonneg (mul_self_nonneg _) hi1
  have t4 : 0 ≤ n2X * (n2X * m2) := by
    rw [← mul_assoc]; exact mul_nonneg (mul_self_nonneg _) hm2
  have t5 : 0 ≤ n2Y * (n2Y * m2) := by
    rw [← mul_assoc]; exact mul_nonneg (mul_self_nonneg _) hm2
  have t6 : 0 ≤ (n2X * w2Y - n2Y * w2X) * ((n2X * w2Y - n2Y * w2X) * i2) := by
    rw [← mul_assoc]; exact mul_nonneg (mul_self_nonneg _) hi2
  refine ⟨sqMul_eq_zero _ _ ?_, sqMul_eq_zero _ _ ?_, sqMul_eq_zero _ _ ?_,
    sqMul_eq_zero _ _ ?_, sqMul_eq_zero _ _ ?_, sqMul_eq_zero _ _ ?_⟩ <;>
    rw [mul_assoc] <;> linarith

/-- `cInvMass ← (|k| > 0) ? 1/k : 0` evaluates to `0` when `k = 0`. -/
theorem refreshLimiter_compInvMass_zero (n1X n1Y n2X n2Y w1X w1Y w2X w2Y m1 i1 m2 i2 : ℚ)
    (hk : limiterCompMass n1X n1Y n2X n2Y w1X w1Y w2X w2Y m1 i1 m2 i2 = 0) :
    (refreshLimiter n1X n1Y n2X n2Y w1X w1Y w2X w2Y m1 i1 m2 i2).compInvMass = 0 := by
  simp only [refreshLimiter, hk]
  norm_num

/-- C6: zero composite mass is handled in-band.  For a joint whose two
limiters were refreshed with vanishing composite mass `k` (with physical,
non-negative inverse masses), `compInvMass` is `0`, and a subsequent
impulse iteration leaves both bodies' velocities and the accumulated
normal impulse unchanged, while a displacement iteration leaves the
displacement velocities and the accumulated displacing impulse unchanged —
provided the respective accumulated impulse is non-negative on entry. -/
theorem zeroCompMass_noop
    (n1X n1Y n2X n2Y t1X t1Y t2X t2Y w1X w1Y w2X w2Y m1 i1 m2 i2 : ℚ)
    (j : ContactJoint) (b1 b2 : SolveBody) (idx : ℤ)
    (hm1 : 0 ≤ m1) (hi1 : 0 ≤ i1) (hm2 : 0 ≤ m2) (hi2 : 0 ≤ i2)
    (hkN : limiterCompMass n1X n1Y n2X n2Y w1X w1Y w2X w2Y m1 i1 m2 i2 = 0)
    (hkF : limiterCompMass t1X t1Y t2X t2Y w1X w1Y w2X w2Y m1 i1 m2 i2 = 0)
    (hcN : j.normalLimiter.coeffs =
      refreshLimiter n1X n1Y n2X n2Y w1X w1Y w2X w2Y m1 i1 m2 i2)
    (hcF : j.frictionLimiter.coeffs =
      refreshLimiter t1X t1Y t2X t2Y w1X w1Y w2X w2Y m1 i1 m2 i2)
    (haccN : 0 ≤ j.normalLimiter.accumulatedImpulse)
    (haccD : 0 ≤ j.normalLimiter.accumulatedDisplacingImpulse) :
    j.normalLimiter.coeffs.compInvMass = 0 ∧
    j.frictionLimiter.coeffs.compInvMass = 0 ∧
    ((solveJointImpulse b1 b2 j idx).1.velocityX = b1.velocityX ∧
     (solveJointImpulse b1 b2 j idx).1.velocityY = b1.velocityY ∧
     (solveJointImpulse b1 b2 j idx).1.angularVelocity = b1.angularVelocity ∧
     (solveJointImpulse b1 b2 j idx).2.1.velocityX = b2.velocityX ∧
     (solveJointImpulse b1 b2 j idx).2.1.velocityY = b2.velocityY ∧
     (solveJointImpulse b1 b2 j idx).2.1.angularVelocity = b2.angularVelocity ∧
     (solveJointImpulse b1 b2 j idx).2.2.1.normalLimiter.accumulatedImpulse =
       j.normalLimiter.accumulatedImpulse) ∧
    ((solveJointDisplacement b1 b2 j idx).1.velocityX = b1.velocityX ∧
     (solveJointDisplacement b1 b2 j idx).1.velocityY = b1.velocityY ∧
     (solveJointDisplacement b1 b2 j idx).1.angularVelocity = b1.angularVelocity ∧
     (solveJointDisplacement b1 b2 j idx).2.1.velocityX = b2.velocityX ∧
     (solveJointDisplacement b1 b2 j idx).2.1.velocityY = b2.velocityY ∧
     (solveJointDisplacement b1 b2 j idx).2.1.angularVelocity = b2.angularVelocity ∧
     (solveJointDisplacement b1 b2 j idx).2.2.1.normalLimiter.accumulatedDisplacingImpulse =
       j.normalLimiter.accumulatedDisplacingImpulse) := by
  obtain ⟨eN1, eN2, eN3, eN4, eN5, eN6⟩ :=
    limiterCompMass_zero_components n1X n1Y n2X n2Y w1X w1Y w2X w2Y m1 i1 m2 i2
      hm1 hi1 hm2 hi2 hkN
  obtain ⟨eF1, eF2, eF3, eF4, eF5, eF6⟩ :=
    limiterCompMass_zero_components t1X t1Y t2X t2Y w1X w1Y w2X w2Y m1 i1 m2 i2
      hm1 hi1 hm2 hi2 hkF
  have hciN : j.normalLimiter.coeffs.compInvMass = 0 := by
    rw [hcN]
    exact refreshLimiter_compInvMass_zero n1X n1Y n2X n2Y w1X w1Y w2X w2Y m1 i1 m2 i2 hkN
  have hciF : j.frictionLimiter.coeffs.compInvMass = 0 := by
    rw [hcF]
    exact refreshLimiter_compInvMass_zero t1X t1Y t2X t2Y w1X w1Y w2X w2Y m1 i1 m2 i2 hkF
  have cN1 : j.normalLimiter.coeffs.compMass1_linearX = 0 := by rw [hcN]; exact eN1
  have cN2 : j.normalLimiter.coeffs.compMass1_linearY = 0 := by rw [hcN]; exact eN2
  have cN3 : j.normalLimiter.coeffs.compMass1_angular = 0 := by rw [hcN]; exact eN3
  have cN4 : j.normalLimiter.coeffs.compMass2_linearX = 0 := by rw [hcN]; exact eN4
  have cN5 : j.normalLimiter.coeffs.compMass2_linearY = 0 := by rw [hcN]; exact eN5
  have cN6 : j.normalLimiter.coeffs.compMass2_angular = 0 := by rw [hcN]; exact eN6
  have cF1 : j.frictionLimiter.coeffs.compMass1_linearX = 0 := by rw [hcF]; exact eF1
  have cF2 : j.frictionLimiter.coeffs.compMass1_linearY = 0 := by rw [hcF]; exact eF2
  have cF3 : j.frictionLimiter.coeffs.compMass1_angular = 0 := by rw [hcF]; exact eF3
  have cF4 : j.frictionLimiter.coeffs.compMass2_linearX = 0 := by rw [hcF]; exact eF4
  have cF5 : j.frictionLimiter.coeffs.compMass2_linearY = 0 := by rw [hcF]; exact eF5
  have cF6 : j.frictionLimiter.coeffs.compMass2_angular = 0 := by rw [hcF]; exact eF6
  have hΔn : max ((j.normalLimiter.dstVelocity -
      projectedVelocity j.normalLimiter.coeffs b1 b2) *
        j.normalLimiter.coeffs.compInvMass) (-j.normalLimiter.accumulatedImpulse) = 0 := by
    rw [hciN, mul_zero]
    exact max_eq_left (neg_nonpos.mpr haccN)
  have hΔd : max ((j.normalLimiter.dstDisplacingVelocity -
      projectedVelocity j.normalLimiter.coeffs b1 b2) *
        j.normalLimiter.coeffs.compInvMass) (-j.normalLimiter.accumulatedDisplacingImpulse) = 0 := by
    rw [hciN, mul_zero]
    exact max_eq_left (neg_nonpos.mpr haccD)
  refine ⟨hciN, hciF, ?_, ?_⟩
  · simp only [solveJointImpulse, applyImpulse1, applyImpulse2, hΔn, cN1, cN2, cN3, cN4,
      cN5, cN6, cF1, cF2, cF3, cF4, cF5, cF6, mul_zero, zero_mul, add_zero]
    exact ⟨trivial, trivial, trivial, trivial, trivial, trivial, trivial⟩
  · simp only [solveJointDisplacement, applyImpulse1, applyImpulse2, hΔd, cN1, cN2, cN3, cN4,
      cN5, cN6, mul_zero, zero_mul, add_zero]
    exact ⟨trivial, trivial, trivial, trivial, trivial, trivial, trivial⟩

/-- Normal-limiter coefficients of a contact between two static bodies. -/
def staticNormalCoeffs : LimiterCoeffs := refreshLimiter 0 1 0 (-1) 0 0 0 0 0 0 0 0

/-- Friction-limiter coefficients of a contact between two static bodies. -/
def staticFrictionCoeffs : LimiterCoeffs := refreshLimiter (-1) 0 1 0 0 0 0 0 0 0 0 0

/-- A warm-started joint between two static (infinite-mass) bodies. -/
def staticJoint : ContactJoint :=
  { body1Index := 0
    body2Index := 1
    collisionIndex := 0
    normalLimiter :=
      { coeffs := staticNormalCoeffs
        accumulatedImpulse := 2
        dstVelocity := 5
        dstDisplacingVelocity := 3
        accumulatedDisplacingImpulse := 1 }
    frictionLimiter := { coeffs := staticFrictionCoeffs, accumulatedImpulse := 1 / 2 } }

/-- Sample impulse-table record for the first static body. -/
def staticSolveBody1 : SolveBody := ⟨4, 5, 6, -1⟩

/-- Sample impulse-table record for the second static body. -/
def staticSolveBody2 : SolveBody := ⟨7, 8, 9, -1⟩

theorem zeroCompMass_noop_witness :
    (limiterCompMass 0 1 0 (-1) 0 0 0 0 0 0 0 0 = 0 ∧
     limiterCompMass (-1) 0 1 0 0 0 0 0 0 0 0 0 = 0 ∧
     0 ≤ staticJoint.normalLimiter.accumulatedImpulse ∧
     0 ≤ staticJoint.normalLimiter.accumulatedDisplacingImpulse) ∧
    (staticJoint.normalLimiter.coeffs.compInvMass = 0 ∧
     staticJoint.frictionLimiter.coeffs.compInvMass = 0 ∧
     ((solveJointImpulse staticSolveBody1 staticSolveBody2 staticJoint 3).1.velocityX =
        staticSolveBody1.velocityX ∧
      (solveJointImpulse staticSolveBody1 staticSolveBody2 staticJoint 3).1.velocityY =
        staticSolveBody1.velocityY ∧
      (solveJointImpulse staticSolveBody1 staticSolveBody2 staticJoint 3).1.angularVelocity =
        staticSolveBody1.angularVelocity ∧
      (solveJointImpulse staticSolveBody1 staticSolveBody2 staticJoint 3).2.1.velocityX =
        staticSolveBody2.velocityX ∧
      (solveJointImpulse staticSolveBody1 staticSolveBody2 staticJoint 3).2.1.velocityY =
        staticSolveBody2.velocityY ∧
      (solveJointImpulse staticSolveBody1 staticSolveBody2 staticJoint 3).2.1.angularVelocity =
        staticSolveBody2.angularVelocity ∧
      (solveJointImpulse staticSolveBody1 staticSolveBody2
          staticJoint 3).2.2.1.normalLimiter.accumulatedImpulse =
        staticJoint.normalLimiter.accumulatedImpulse) ∧
     ((solveJointDisplacement staticSolveBody1 staticSolveBody2 staticJoint 3).1.velocityX =
        staticSolveBody1.velocityX ∧
      (solveJointDisplacement staticSolveBody1 staticSolveBody2 staticJoint 3).1.velocityY =
        staticSolveBody1.velocityY ∧
      (solveJointDisplacement staticSolveBody1 staticSolveBody2 staticJoint 3).1.angularVelocity =
        staticSolveBody1.angularVelocity ∧
      (solveJointDisplacement staticSolveBody1 staticSolveBody2 staticJoint 3).2.1.velocityX =
        staticSolveBody2.velocityX ∧
      (solveJointDisplacement staticSolveBody1 staticSolveBody2 staticJoint 3).2.1.velocityY =
        staticSolveBody2.velocityY ∧
      (solveJointDisplacement staticSolveBody1 staticSolveBody2 staticJoint 3).2.1.angularVelocity =
        staticSolveBody2.angularVelocity ∧
      (solveJointDisplacement staticSolveBody1 staticSolveBody2
          staticJoint 3).2.2.1.normalLimiter.accumulatedDisplacingImpulse =
        staticJoint.normalLimiter.accumulatedDisplacingImpulse)) :=
  ⟨⟨by norm_num [limiterCompMass], by norm_num [limiterCompMass],
    by norm_num [staticJoint], by norm_num [staticJoint]⟩,
   zeroCompMass_noop 0 1 0 (-1) (-1) 0 1 0 0 0 0 0 0 0 0 0
     staticJoint staticSolveBody1 staticSolveBody2 3
     le_rfl le_rfl le_rfl le_rfl
     (by norm_num [limiterCompMass]) (by norm_num [limiterCompMass])
     rfl rfl (by norm_num [staticJoint]) (by norm_num [staticJoint])⟩

/-- Swap-pop removes exactly the element at position `i`: putting it back
in front gives a permutation of the original list. -/
theorem get_cons_swapPop_perm : ∀ (l : List ℕ) (i : ℕ) (h : i < l.length),
    List.Perm (l.get ⟨i, h⟩ :: swapPop l i) l := by
  intro l
  induction l with
  | nil => intro i h; simp at h
  | cons a t ih =>
    intro i h
    cases i with
    | zero =>
      cases t with
      | nil => simp [swapPop]
      | cons b t' =>
        have hbt : (b :: t') ≠ [] := by simp
        simp only [List.get, swapPop, List.getLast?_cons_cons, List.set]
        rw [List.dropLast_cons₂]
        refine List.Perm.cons a ?_
        rw [List.getLast?_eq_getLast (b :: t') hbt]
        simp only [Option.getD_some]
        have h1 : (b :: t').dropLast ++ [(b :: t').getLast hbt] = b :: t' :=
          List.dropLast_append_getLast hbt
        have h2 : ((b :: t').dropLast ++ [(b :: t').getLast hbt]).Perm (b :: t') := by
          rw [h1]
        exact (List.perm_append_singleton _ _).symm.trans h2
    | succ i =>
      cases t with
      | nil => simp at h
      | cons b t' =>
        have hi : i < (b :: t').length := by simpa using h
        have key : swapPop (a :: b :: t') (i + 1) = a :: swapPop (b :: t') i := by
          simp only [swapPop, List.getLast?_cons_cons, List.set]
          cases hset : (b :: t').set i (((b :: t').getLast?).getD 0) with
          | nil => exact absurd (congrArg List.length hset) (by simp)
          | cons c u => rw [List.dropLast_cons₂]
        have hget : (a :: b :: t').get ⟨i + 1, h⟩ = (b :: t').get ⟨i, hi⟩ := rfl
        rw [key, hget]
        exact (List.Perm.swap _ _ _).trans (List.Perm.cons a (ih i hi))

/-- The gathering loop conserves the joint indices: the gathered group
together with the new remaining list is a permutation of what it started
from. -/
theorem gatherGroup_perm (joints : ℕ → ContactJoint) (tag N : ℕ) :
    ∀ (bodiesTag : ℕ → ℕ) (remaining : List ℕ) (i : ℕ) (acc : List ℕ),
    List.Perm
      ((gatherGroup joints tag N bodiesTag remaining i acc).2.2 ++
        (gatherGroup joints tag N bodiesTag remaining i acc).2.1)
      (acc ++ remaining) := by
  intro bodiesTag remaining i acc
  induction bodiesTag, remaining, i, acc using gatherGroup.induct joints tag N with
  | case1 bodiesTag remaining i acc h accept ih =>
    rw [gatherGroup, dif_pos h, if_pos accept]
    refine ih.trans ?_
    rw [List.append_assoc]
    refine List.Perm.append_left acc ?_
    exact get_cons_swapPop_perm remaining i h.1
  | case2 bodiesTag remaining i acc h reject ih =>
    rw [gatherGroup, dif_pos h, if_neg reject]
    exact ih
  | case3 bodiesTag remaining i acc h =>
    rw [gatherGroup, dif_neg h]

/-- The gathering loop never increases the tag table beyond `tag`. -/
theorem gatherGroup_tags_le (joints : ℕ → ContactJoint) (tag N : ℕ) :
    ∀ (bodiesTag : ℕ → ℕ) (remaining : List ℕ) (i : ℕ) (acc : List ℕ),
    (∀ b, bodiesTag b ≤ tag) →
    ∀ b, (gatherGroup joints tag N bodiesTag remaining i acc).1 b ≤ tag := by
  intro bodiesTag remaining i acc
  induction bodiesTag, remaining, i, acc using gatherGroup.induct joints tag N with
  | case1 bodiesTag remaining i acc h accept ih =>
    intro htags b
    rw [gatherGroup, dif_pos h, if_pos accept]
    refine ih ?_ b
    intro b'
    simp only [Function.update_apply]
    split_ifs <;> first | exact le_refl tag | exact htags b'
  | case2 bodiesTag remaining i acc h reject ih =>
    intro htags b
    rw [gatherGroup, dif_pos h, if_neg reject]
    exact ih htags b
  | case3 bodiesTag remaining i acc h =>
    intro htags b
    rw [gatherGroup, dif_neg h]
    exact htags b

/-- The gathering loop never grows the remaining list. -/
theorem gatherGroup_remaining_le (joints : ℕ → ContactJoint) (tag N : ℕ) :
    ∀ (bodiesTag : ℕ → ℕ) (remaining : List ℕ) (i : ℕ) (acc : List ℕ),
    (gatherGroup joints tag N bodiesTag remaining i acc).2.1.length ≤ remaining.length := by
  intro bodiesTag remaining i acc
  induction bodiesTag, remaining, i, acc using gatherGroup.induct joints tag N with
  | case1 bodiesTag remaining i acc h accept ih =>
    rw [gatherGroup, dif_pos h, if_pos accept]
    have := swapPop_length remaining i
    omega
  | case2 bodiesTag remaining i acc h reject ih =>
    rw [gatherGroup, dif_pos h, if_neg reject]
    exact ih
  | case3 bodiesTag remaining i acc h =>
    rw [gatherGroup, dif_neg h]

/-- Two joints touch pairwise-distinct bodies. -/
def jointsDisjoint (joints : ℕ → ContactJoint) (a b : ℕ) : Prop :=
  (joints a).body1Index ≠ (joints b).body1Index ∧
  (joints a).body1Index ≠ (joints b).body2Index ∧
  (joints a).body2Index ≠ (joints b).body1Index ∧
  (joints a).body2Index ≠ (joints b).body2Index

/-- The group gathered in one round touches pairwise-disjoint bodies: a
joint is only claimed when both of its bodies still carry a tag strictly
below the round's tag, and claiming stamps them with the round's tag. -/
theorem gatherGroup_pairwise (joints : ℕ → ContactJoint) (tag N : ℕ) :
    ∀ (bodiesTag : ℕ → ℕ) (remaining : List ℕ) (i : ℕ) (acc : List ℕ),
    (∀ a ∈ acc, bodiesTag (joints a).body1Index = tag ∧
      bodiesTag (joints a).body2Index = tag) →
    acc.Pairwise (jointsDisjoint joints) →
    (gatherGroup joints tag N bodiesTag remaining i acc).2.2.Pairwise
      (jointsDisjoint joints) := by
  intro bodiesTag remaining i acc
  induction bodiesTag, remaining, i, acc using gatherGroup.induct joints tag N with
  | case1 bodiesTag remaining i acc h accept ih =>
    intro htagged hpw
    rw [gatherGroup, dif_pos h, if_pos accept]
    refine ih ?_ ?_
    · intro a ha
      rcases List.mem_append.1 ha with ha | ha
      · obtain ⟨e1, e2⟩ := htagged a ha
        constructor
        · simp only [Function.update_apply]
          split_ifs <;> first | rfl | exact e1
        · simp only [Function.update_apply]
          split_ifs <;> first | rfl | exact e2
      · simp only [List.mem_singleton] at ha
        subst ha
        constructor
        · simp only [Function.update_apply]
          split_ifs <;> rfl
        · simp [Function.update_apply]
    · rw [List.pairwise_append]
      refine ⟨hpw, List.pairwise_singleton _ _, ?_⟩
      intro a ha b hb
      simp only [List.mem_singleton] at hb
      subst hb
      obtain ⟨e1, e2⟩ := htagged a ha
      refine ⟨?_, ?_, ?_, ?_⟩
      · intro hEq; rw [← hEq, e1] at accept; exact absurd accept.1 (lt_irrefl tag)
      · intro hEq; rw [← hEq, e1] at accept; exact absurd accept.2 (lt_irrefl tag)
      · intro hEq; rw [← hEq, e2] at accept; exact absurd accept.1 (lt_irrefl tag)
      · intro hEq; rw [← hEq, e2] at accept; exact absurd accept.2 (lt_irrefl tag)
  | case2 bodiesTag remaining i acc h reject ih =>
    intro htagged hpw
    rw [gatherGroup, dif_pos h, if_neg reject]
    exact ih htagged hpw
  | case3 bodiesTag remaining i acc h =>
    intro htagged hpw
    rw [gatherGroup, dif_neg h]
    exact hpw

/-- The grouping loop conserves the joint indices. -/
theorem groupLoop_perm (joints : ℕ → ContactJoint) (N : ℕ) :
    ∀ (bodiesTag : ℕ → ℕ) (tag : ℕ) (remaining : List ℕ),
    List.Perm
      ((groupLoop joints N bodiesTag tag remaining).1.flatten ++
        (groupLoop joints N bodiesTag tag remaining).2)
      remaining := by
  intro bodiesTag tag remaining
  induction bodiesTag, tag, remaining using groupLoop.induct joints N with
  | case1 bodiesTag tag remaining h h2 ih =>
    rw [groupLoop, dif_pos h, dif_pos h2]
    simp only [List.flatten_cons, List.append_assoc]
    refine List.Perm.trans (List.Perm.append_left _ ih) ?_
    have := gatherGroup_perm joints (tag + 1) N bodiesTag remaining 0 []
    simpa using this
  | case2 bodiesTag tag remaining h h2 =>
    rw [groupLoop, dif_pos h, dif_neg h2]
    simp only [List.flatten_cons, List.flatten_nil, List.append_nil]
    have := gatherGroup_perm joints (tag + 1) N bodiesTag remaining 0 []
    simpa using this
  | case3 bodiesTag tag remaining h =>
    rw [groupLoop, dif_neg h]
    simp

/-- Taking exactly the length of the left part of an append. -/
theorem take_length_append (l1 l2 : List ℕ) (n : ℕ) (h : l1.length = n) :
    (l1 ++ l2).take n = l1 := by
  subst h
  exact List.take_left _ _

/-- Dropping past the left part of an append. -/
theorem drop_length_append (l1 l2 : List ℕ) (n k : ℕ) (h : l1.length = n) :
    (l1 ++ l2).drop (n + k) = l2.drop k := by
  subst h
  exact List.drop_append _

/-- The gathered group never exceeds the group size target. -/
theorem gatherGroup_acc_le (joints : ℕ → ContactJoint) (tag N : ℕ) :
    ∀ (bodiesTag : ℕ → ℕ) (remaining : List ℕ) (i : ℕ) (acc : List ℕ),
    acc.length ≤ N → (gatherGroup joints tag N bodiesTag remaining i acc).2.2.length ≤ N := by
  intro bodiesTag remaining i acc
  induction bodiesTag, remaining, i, acc using gatherGroup.induct joints tag N with
  | case1 bodiesTag remaining i acc h accept ih =>
    intro _
    rw [gatherGroup, dif_pos h, if_pos accept]
    refine ih ?_
    simp only [List.length_append, List.length_cons, List.length_nil]
    omega
  | case2 bodiesTag remaining i acc h reject ih =>
    intro hle
    rw [gatherGroup, dif_pos h, if_neg reject]
    exact ih hle
  | case3 bodiesTag remaining i acc h =>
    intro hle
    rw [gatherGroup, dif_neg h]
    exact hle

/-- Every aligned `N`-window of the grouped region (the first
`flatten.length / N * N` entries of the permuted index list) comes from a
single gathering round: its joints touch pairwise-disjoint bodies, and all
its entries come from the initial remaining list. -/
theorem groupLoop_windows (joints : ℕ → ContactJoint) (N : ℕ) :
    ∀ (bodiesTag : ℕ → ℕ) (tag : ℕ) (remaining : List ℕ) (m : ℕ),
    (m + 1) * N ≤ (groupLoop joints N bodiesTag tag remaining).1.flatten.length / N * N →
    ((((groupLoop joints N bodiesTag tag remaining).1.flatten ++
        (groupLoop joints N bodiesTag tag remaining).2).drop (m * N)).take N).Pairwise
      (jointsDisjoint joints) ∧
    ∀ a ∈ (((groupLoop joints N bodiesTag tag remaining).1.flatten ++
        (groupLoop joints N bodiesTag tag remaining).2).drop (m * N)).take N,
      a ∈ remaining := by
  intro bodiesTag tag remaining
  induction bodiesTag, tag, remaining using groupLoop.induct joints N with
  | case1 bodiesTag tag remaining h h2 ih =>
    intro m hm
    have hN : 0 < N := h.2
    rw [groupLoop, dif_pos h, dif_pos h2] at hm ⊢
    simp only [List.flatten_cons, List.length_append, List.append_assoc] at hm ⊢
    rw [h2, add_comm N _, Nat.add_div_right _ hN] at hm
    cases m with
    | zero =>
      rw [zero_mul, List.drop_zero, take_length_append _ _ _ h2]
      constructor
      · exact gatherGroup_pairwise joints (tag + 1) N bodiesTag remaining 0 []
          (by simp) List.Pairwise.nil
      · intro a ha
        have hperm := gatherGroup_perm joints (tag + 1) N bodiesTag remaining 0 []
        simp only [List.nil_append] at hperm
        exact hperm.mem_iff.1 (List.mem_append_left _ ha)
    | succ m' =>
      rw [show (m' + 1) * N = N + m' * N by ring, drop_length_append _ _ _ _ h2]
      have hb : (m' + 1) * N ≤
          (groupLoop joints N (gatherGroup joints (tag + 1) N bodiesTag remaining 0 []).1
            (tag + 1)
            (gatherGroup joints (tag + 1) N bodiesTag remaining 0 []).2.1).1.flatten.length /
          N * N := by
        rw [show (m' + 1 + 1) * N = (m' + 1) * N + N by ring] at hm
        rw [show ((groupLoop joints N (gatherGroup joints (tag + 1) N bodiesTag remaining 0
            []).1 (tag + 1)
            (gatherGroup joints (tag + 1) N bodiesTag remaining 0 []).2.1).1.flatten.length /
            N + 1) * N =
          (groupLoop joints N (gatherGroup joints (tag + 1) N bodiesTag remaining 0 []).1
            (tag + 1)
            (gatherGroup joints (tag + 1) N bodiesTag remaining 0 []).2.1).1.flatten.length /
            N * N + N by ring] at hm
        exact Nat.le_of_add_le_add_right hm
      obtain ⟨hpw, hmem⟩ := ih m' hb
      refine ⟨hpw, fun a ha => ?_⟩
      have hmem' := hmem a ha
      have hperm := gatherGroup_perm joints (tag + 1) N bodiesTag remaining 0 []
      simp only [List.nil_append] at hperm
      exact hperm.mem_iff.1 (List.mem_append_right _ hmem')
  | case2 bodiesTag tag remaining h h2 =>
    intro m hm
    rw [groupLoop, dif_pos h, dif_neg h2] at hm
    simp only [List.flatten_cons, List.flatten_nil, List.append_nil] at hm
    have hlt : (gatherGroup joints (tag + 1) N bodiesTag remaining 0 []).2.2.length < N :=
      lt_of_le_of_ne
        (gatherGroup_acc_le joints (tag + 1) N bodiesTag remaining 0 [] (by simp)) h2
    rw [Nat.div_eq_of_lt hlt, zero_mul] at hm
    have hz : N = 0 := by
      rcases Nat.mul_eq_zero.1 (Nat.le_zero.1 hm) with h0 | h0
      · exact absurd h0 (Nat.succ_ne_zero m)
      · exact h0
    exact absurd hz (Nat.pos_iff_ne_zero.1 h.2)
  | case3 bodiesTag tag remaining h =>
    intro m hm
    rw [groupLoop, dif_neg h] at hm ⊢
    simp only [List.flatten_nil, List.length_nil, Nat.zero_div, zero_mul] at hm
    have hz : N = 0 := by
      rcases Nat.mul_eq_zero.1 (Nat.le_zero.1 hm) with h0 | h0
      · exact absurd h0 (Nat.succ_ne_zero m)
      · exact h0
    subst hz
    simp

/-- Expanding a window of pairwise-disjoint joints (each with two distinct
bodies of its own) into body indices yields a list of pairwise-distinct
body indices. -/
theorem window_pairwise_ne (joints : ℕ → ContactJoint) :
    ∀ (w : List ℕ), w.Pairwise (jointsDisjoint joints) →
    (∀ a ∈ w, (joints a).body1Index ≠ (joints a).body2Index) →
    (w.flatMap fun i => [(joints i).body1Index, (joints i).body2Index]).Pairwise (· ≠ ·) := by
  intro w
  induction w with
  | nil => intro _ _; simp
  | cons a t ih =>
    intro hpw hd
    rw [List.pairwise_cons] at hpw
    rw [List.flatMap_cons, List.pairwise_append]
    refine ⟨?_, ih hpw.2 (fun b hb => hd b (by simp [hb])), ?_⟩
    · simp [hd a (by simp)]
    · intro x hx y hy
      simp only [List.mem_cons, List.mem_singleton, List.not_mem_nil, or_false] at hx
      simp only [List.mem_flatMap, List.mem_cons, List.mem_singleton, List.not_mem_nil,
        or_false] at hy
      obtain ⟨c, hc, hyc⟩ := hy
      obtain ⟨d1, d2, d3, d4⟩ := hpw.1 c hc
      rcases hx with rfl | rfl <;> rcases hyc with rfl | rfl <;> assumption

/-- C3 (amended): grouping postcondition of `SolvePrepareIndicesSoA` for
`groupSizeTarget = N > 1`, provided every joint's own two body indices are
distinct: the returned `groupOffset` is a multiple of `N`, every aligned
`N`-window of `joint_index` below `groupOffset` expands to `2N` pairwise
distinct body indices, and `joint_index` is a permutation of
`[0, jointCount)`. -/
theorem solvePrepareIndicesSoA_grouping (joints : ℕ → ContactJoint)
    (jointCount bodiesCount N : ℕ) (hN : 1 < N)
    (hd : ∀ i < jointCount, (joints i).body1Index ≠ (joints i).body2Index) :
    (solvePrepareIndicesSoA joints jointCount bodiesCount N).2 % N = 0 ∧
    (∀ m, (m + 1) * N ≤ (solvePrepareIndicesSoA joints jointCount bodiesCount N).2 →
      (windowBodyIndices joints (solvePrepareIndicesSoA joints jointCount bodiesCount N).1
        N m).Pairwise (· ≠ ·)) ∧
    List.Perm (solvePrepareIndicesSoA joints jointCount bodiesCount N).1
      (List.range jointCount) := by
  have hne : ¬ N = 1 := by omega
  simp only [solvePrepareIndicesSoA, if_neg hne]
  refine ⟨Nat.mul_mod_left _ _, ?_, ?_⟩
  · intro m hm
    rw [windowBodyIndices]
    obtain ⟨hpw, hmem⟩ := groupLoop_windows joints N (fun _ => 0) 0 (List.range jointCount) m hm
    refine window_pairwise_ne joints _ hpw ?_
    intro a ha
    exact hd a (List.mem_range.1 (hmem a ha))
  · exact groupLoop_perm joints N (fun _ => 0) 0 (List.range jointCount)

/-- A joint carrying only its body pair (the limiter payload is irrelevant
to grouping). -/
def plainJoint (b1 b2 : ℕ) : ContactJoint :=
  { body1Index := b1
    body2Index := b2
    collisionIndex := 0
    normalLimiter :=
      { coeffs := sampleCoeffs
        accumulatedImpulse := 0
        dstVelocity := 0
        dstDisplacingVelocity := 0
        accumulatedDisplacingImpulse := 0 }
    frictionLimiter := { coeffs := sampleCoeffs, accumulatedImpulse := 0 } }

/-- A joint list whose first joint references the same body twice. -/
def degenerateJoints : ℕ → ContactJoint := fun i =>
  if i = 0 then plainJoint 0 0 else plainJoint 1 2

theorem degenerate_eval : solvePrepareIndicesSoA degenerateJoints 2 3 2 = ([0, 1], 2) := by
  simp [solvePrepareIndicesSoA, groupLoop, gatherGroup, swapPop, degenerateJoints, plainJoint,
    Function.update_apply, List.range_succ]

/-- C3 counterexample: the grouping claim fails as stated on a joint whose
two body indices coincide.  With joints `(0,0)` and `(1,2)` and `N = 2`,
the returned `groupOffset` is `2`, so the single window is inside the
grouped region, yet its four body indices `0, 0, 1, 2` are not pairwise
distinct. -/
theorem solvePrepareIndicesSoA_grouping_counterexample :
    (solvePrepareIndicesSoA degenerateJoints 2 3 2).2 = 2 ∧
    (0 + 1) * 2 ≤ (solvePrepareIndicesSoA degenerateJoints 2 3 2).2 ∧
    ¬ (windowBodyIndices degenerateJoints
        (solvePrepareIndicesSoA degenerateJoints 2 3 2).1 2 0).Pairwise (· ≠ ·) := by
  rw [degenerate_eval]
  exact ⟨rfl, by norm_num, by decide⟩

theorem solvePrepareIndicesSoA_grouping_witness :
    (1 : ℕ) < 2 ∧
    ((solvePrepareIndicesSoA (fun _ => plainJoint 0 1) 1 2 2).2 % 2 = 0 ∧
     (∀ m, (m + 1) * 2 ≤ (solvePrepareIndicesSoA (fun _ => plainJoint 0 1) 1 2 2).2 →
       (windowBodyIndices (fun _ => plainJoint 0 1)
         (solvePrepareIndicesSoA (fun _ => plainJoint 0 1) 1 2 2).1 2 m).Pairwise (· ≠ ·)) ∧
     List.Perm (solvePrepareIndicesSoA (fun _ => plainJoint 0 1) 1 2 2).1 (List.range 1)) :=
  ⟨by decide, solvePrepareIndicesSoA_grouping (fun _ => plainJoint 0 1) 1 2 2 (by decide)
    (by decide)⟩

/-- C10: each round of the grouping loop removes at least one joint.  With
all body tags at most `tag` when the round increments the tag to
`tag + 1`, the first joint examined always qualifies, so the remaining
list strictly shrinks and the outer loop terminates. -/
theorem gatherRound_removes (joints : ℕ → ContactJoint) (N tag : ℕ) (bodiesTag : ℕ → ℕ)
    (remaining : List ℕ) (hN : 0 < N) (hne : remaining ≠ [])
    (htags : ∀ b, bodiesTag b ≤ tag) :
    (gatherGroup joints (tag + 1) N bodiesTag remaining 0 []).2.1.length <
      remaining.length := by
  have h0 : 0 < remaining.length := List.length_pos.mpr hne
  have hcond : 0 < remaining.length ∧ ([] : List ℕ).length < N := ⟨h0, by simpa using hN⟩
  rw [gatherGroup, dif_pos hcond,
    if_pos ⟨Nat.lt_succ_of_le (htags _), Nat.lt_succ_of_le (htags _)⟩]
  have hle := gatherGroup_remaining_le joints (tag + 1) N
    (Function.update (Function.update bodiesTag
      (joints (remaining.get ⟨0, hcond.1⟩)).body1Index (tag + 1))
      (joints (remaining.get ⟨0, hcond.1⟩)).body2Index (tag + 1))
    (swapPop remaining 0) 0 ([] ++ [remaining.get ⟨0, hcond.1⟩])
  have hsw := swapPop_length remaining 0
  omega

theorem gatherRound_removes_witness :
    (0 : ℕ) < 2 ∧ ([0] : List ℕ) ≠ [] ∧
    (gatherGroup (fun _ => plainJoint 0 1) 1 2 (fun _ => 0) [0] 0 []).2.1.length < 1 :=
  ⟨by decide, by decide, by
    have := gatherRound_removes (fun _ => plainJoint 0 1) 2 0 (fun _ => 0) [0]
      (by decide) (by decide) (fun b => le_refl 0)
    simpa using this⟩
